import Mathlib

/-!
Verification of the ts_ess_common sensor-telemetry library.

This file is a shallow embedding, in Lean 4, of the parts of the library
needed to settle the claims under audit:

* the Campbell CSAT3B decoder (`sensor/campbell_csat3b.py`),
* the Gill Windsonic decoder (`sensor/gill_windsonic.py`),
* the multi-channel temperature decoder (`sensor/temperature_sensor.py`
  and `sensor/utils.py`),
* the air-flow accumulator (`accumulator/air_flow_accumulator.py` and
  `utils.py`),
* the read-loop data client (`data_client/base_read_loop_data_client.py`),
* the command handler (`abstract_command_handler.py`).

Python strings are embedded as `List Char`; Python floats are idealized as
exact rationals plus a NaN sentinel (the wire formats carry fixed-point
decimal literals, which are exact), and fallible Python code (raising) is
embedded in `Except`/`Option`.
-/

set_option autoImplicit false

attribute [local semireducible] Rat.add Rat.mul Rat.inv Rat.sub

namespace EssCommon

/-- A Python telemetry value: an exact numeric value (Python ints and the
fixed-point decimal floats of the wire protocols, idealized as rationals)
or the IEEE NaN sentinel produced for missing/invalid data. -/
inductive PyVal where
| num (q : ℚ)
| nan
deriving DecidableEq, Repr

/-- Decidable equality of embedded fallible results. -/
instance exceptDecEq {ε α : Type} [DecidableEq ε] [DecidableEq α] :
    DecidableEq (Except ε α)
| .ok a, .ok b =>
  if h : a = b then .isTrue (by rw [h])
  else .isFalse (by intro hh; cases hh; exact h rfl)
| .error a, .error b =>
  if h : a = b then .isTrue (by rw [h])
  else .isFalse (by intro hh; cases hh; exact h rfl)
| .ok _, .error _ => .isFalse (by intro hh; cases hh)
| .error _, .ok _ => .isFalse (by intro hh; cases hh)

/-- Python str.split with a one-character separator, as used by the
decoders (`line.split(self.delimiter)` and `line_item.split("=")`):
splitting the empty string gives one empty piece, and separators at the
ends produce empty pieces. -/
def pySplit (sep : Char) : List Char → List (List Char)
| [] => [[]]
| c :: rest =>
  let r := pySplit sep rest
  if c = sep then
    [] :: r
  else
    match r with
    | [] => [[c]]
    | h :: t => (c :: h) :: t

/-- Python str.strip(chars): remove any run of characters of `cs` from both
ends, as used by `line.strip(self.terminator)`. -/
def pyStrip (cs : List Char) (l : List Char) : List Char :=
  ((l.dropWhile (fun c => decide (c ∈ cs))).reverse.dropWhile
    (fun c => decide (c ∈ cs))).reverse

/-- Index of the last occurrence of `c` in `l`, if any (Python str.rfind,
with `none` for the -1 "not found" result). -/
def findLastIdx (c : Char) : List Char → Option Nat
| [] => none
| a :: rest =>
  match findLastIdx c rest with
  | some i => some (i + 1)
  | none => if a = c then some 0 else none

/-- The slice `s[:s.rfind(c)]` used by `compute_signature`: everything
before the last occurrence of `c`; when `c` does not occur, Python's
`s[:-1]` drops the last character. -/
def takeBeforeLast (c : Char) (l : List Char) : List Char :=
  match findLastIdx c l with
  | some i => l.take i
  | none => l.take (l.length - 1)

/-- Numeric value of a nonempty all-digit string (helper for the Python
int()/float() parsers below). -/
def digitsToNat (l : List Char) : Nat :=
  l.foldl (fun n c => n * 10 + (c.toNat - 48)) 0

/-- Python int(s), restricted to the optionally signed decimal integer
literals these wire protocols carry; `none` embeds the ValueError raised
on any other input. -/
def parseInt (l : List Char) : Option Int :=
  match l with
  | '-' :: rest =>
    if rest ≠ [] ∧ rest.all Char.isDigit then some (-(digitsToNat rest : Int)) else none
  | '+' :: rest =>
    if rest ≠ [] ∧ rest.all Char.isDigit then some (digitsToNat rest : Int) else none
  | _ =>
    if l ≠ [] ∧ l.all Char.isDigit then some (digitsToNat l : Int) else none

/-- Unsigned part of Python float(s): `digits`, `digits.digits`,
`digits.` or `.digits`. -/
def parseUnsignedFloat (l : List Char) : Option ℚ :=
  match pySplit '.' l with
  | [ip] =>
    if ip ≠ [] ∧ ip.all Char.isDigit then some (digitsToNat ip : ℚ) else none
  | [ip, fp] =>
    if (ip ++ fp) ≠ [] ∧ ip.all Char.isDigit ∧ fp.all Char.isDigit then
      some ((digitsToNat ip : ℚ) + (digitsToNat fp : ℚ) / (10 : ℚ) ^ fp.length)
    else none
  | _ => none

/-- Python float(s), restricted to the signed fixed-point decimal literals
these sensors emit; `none` embeds the ValueError raised on any other
input. -/
def parseFloat (l : List Char) : Option ℚ :=
  match l with
  | '-' :: rest => (parseUnsignedFloat rest).map Neg.neg
  | '+' :: rest => parseUnsignedFloat rest
  | _ => parseUnsignedFloat l

/-- Value of one hexadecimal digit, case-insensitive. -/
def hexDigitVal (c : Char) : Option Nat :=
  if c.isDigit then some (c.toNat - 48)
  else if 'a' ≤ c ∧ c ≤ 'f' then some (c.toNat - 87)
  else if 'A' ≤ c ∧ c ≤ 'F' then some (c.toNat - 55)
  else none

/-- Python int(s, 16), restricted to nonempty unsigned hexadecimal digit
strings (the form the signature/checksum fields take on the wire);
`none` embeds the ValueError raised on any other input. -/
def parseHexNat (l : List Char) : Option Nat :=
  if l = [] then none
  else (l.mapM hexDigitVal).map (List.foldl (fun n d => n * 16 + d) 0)

/-- Modelled from the spec: the class `BaseSensor` (module
`sensor/base_sensor.py`) is not among the provided sources; per the spec
and the per-sensor docstrings, it supplies each sensor's default comma
field delimiter. -/
def defaultDelimiter : Char := ','

/-- Modelled from the spec: `BaseSensor` (not among the provided sources)
also supplies the default line terminator CR LF used by the Windsonic and
temperature sensors. -/
def defaultTerminator : List Char := ['\r', '\n']

/-! ## Campbell CSAT3B (sensor/campbell_csat3b.py) -/

namespace Csat3b

/-- One iteration of the C signature loop of `compute_signature`:
`b = ((lsb << 1) + msb + ord(char)) % 256; if lsb & 0x80: b = b + 1;
msb = lsb; lsb = b`. The state is the pair `(msb, lsb)`. -/
def sigStep (p : Nat × Nat) (ch : Char) : Nat × Nat :=
  let msb := p.1
  let lsb := p.2
  let b0 := ((lsb <<< 1) + msb + ch.toNat) % 256
  let b := if lsb &&& 0x80 ≠ 0 then b0 + 1 else b0
  (lsb, b)

/-- Translation of `compute_signature(input_str, delimiter)`: strip the
last delimiter and everything after it, then run the seeded loop and
return `((msb << 8) + lsb) % 0x10000`. -/
def compute_signature (input_str : List Char) (delimiter : Char) : Nat :=
  let s := takeBeforeLast delimiter input_str
  let p := s.foldl sigStep (0xAA, 0xAA)
  ((p.1 <<< 8) + p.2) % 0x10000

/-- The `_NANS_OUTPUT` default record
`[np.nan, np.nan, np.nan, np.nan, 0, 0, 0]`. -/
def nansOutput : List PyVal :=
  [.nan, .nan, .nan, .nan, .num 0, .num 0, .num 0]

/-- `Csat3bSensor.__init__` overrides the terminator to a single CR. -/
def terminator : List Char := ['\r']

/-- Translation of `Csat3bSensor.extract_telemetry`: strip the terminator,
split on the delimiter; with exactly 7 items parse
`float,float,float,float,int,int,int(,16)` (a parse failure raises
ValueError, embedded as `.error`), otherwise return `_NANS_OUTPUT`. -/
def extract_telemetry (line : List Char) : Except Unit (List PyVal) :=
  let stripped := pyStrip terminator line
  match pySplit defaultDelimiter stripped with
  | [i0, i1, i2, i3, i4, i5, i6] =>
    match parseFloat i0, parseFloat i1, parseFloat i2, parseFloat i3,
        parseInt i4, parseInt i5, parseHexNat i6 with
    | some x, some y, some z, some t, some d, some c, some s =>
      .ok [.num x, .num y, .num z, .num t, .num d, .num c, .num s]
    | _, _, _, _, _, _, _ => .error ()
  | _ => .ok nansOutput

end Csat3b

/-! ## Multi-channel temperature (sensor/temperature_sensor.py, sensor/utils.py) -/

namespace Temperature

/-- `DISCONNECTED_VALUE = "9999.9990"` (constants.py). -/
def disconnectedValue : List Char := "9999.9990".toList

/-- Translation of `add_missing_telemetry(telemetry, expected_length)`
(sensor/utils.py): left-pad with NaN up to the expected length. -/
def add_missing_telemetry (telemetry : List PyVal) (expected_length : Nat) :
    List PyVal :=
  if telemetry.length < expected_length then
    List.replicate (expected_length - telemetry.length) PyVal.nan ++ telemetry
  else telemetry

/-- The per-item body of the loop in `TemperatureSensor.extract_telemetry`:
split on "="; one part appends NaN, two parts parse the value (the
disconnected sentinel gives NaN, float() may raise ValueError), more
parts raise ValueError. -/
def extract_item (line_item : List Char) : Except Unit PyVal :=
  match pySplit '=' line_item with
  | [_] => .ok .nan
  | [_, v] =>
    if v = disconnectedValue then .ok .nan
    else
      match parseFloat v with
      | some q => .ok (.num q)
      | none => .error ()
  | _ => .error ()

/-- Translation of `TemperatureSensor.extract_telemetry`: strip the
terminator, split on the delimiter, convert each item, then left-pad
with NaN to `num_channels`. -/
def extract_telemetry (line : List Char) (num_channels : Nat) :
    Except Unit (List PyVal) := do
  let stripped := pyStrip defaultTerminator line
  let line_items := pySplit defaultDelimiter stripped
  let output ← line_items.mapM extract_item
  return add_missing_telemetry output num_channels

/-- Claim-side constructor of a telemetry line: pieces joined by a
separator (Python's `sep.join`). -/
def joinWith (sep : Char) : List (List Char) → List Char
| [] => []
| [p] => p
| p :: q :: rest => p ++ sep :: joinWith sep (q :: rest)

/-- Claim-side rendering of one `CXX=value` field. -/
def renderField (p : List Char × List Char) : List Char :=
  p.1 ++ '=' :: p.2

/-- Claim-side value of one field: NaN for the disconnected sentinel,
otherwise the parsed decimal. -/
def fieldVal (p : List Char × List Char) : PyVal :=
  if p.2 = disconnectedValue then .nan
  else
    match parseFloat p.2 with
    | some q => .num q
    | none => .nan

end Temperature

/-! ## Gill Windsonic (sensor/gill_windsonic.py) -/

namespace Windsonic

/-- Translation of `compute_checksum`: XOR of the byte values of the
string. -/
def compute_checksum (checksum_string : List Char) : Nat :=
  checksum_string.foldl (fun a c => a ^^^ c.toNat) 0

/-- Whether a character matches the regex class `[\da-fA-F]`. -/
def isHexDigit (c : Char) : Bool := (hexDigitVal c).isSome

/-- Value of a string of hex digits; on the strings the telemetry regex
accepts for its checksum group this is Python's `int(s, 16)`. -/
def hexValD (l : List Char) : Nat :=
  l.foldl (fun n c => n * 16 + (hexDigitVal c).getD 0) 0

/-- The groups captured by a successful match of
`WindsonicSensor.telemetry_pattern`: the optional three-digit direction,
the six-character speed, the two-digit status, the two-hex-digit
checksum, and whether the match used the extra trailing newline that the
regex `$` anchor admits. -/
structure WsGroups where
  dir : Option (List Char)
  speed : List Char
  status : List Char
  cs : List Char
  extraNL : Bool
deriving DecidableEq, Repr

/-- Tail stage of the telemetry pattern after the direction field:
`(?P<speed>\d{3}\.\d{2}),M,(?P<status>\d{2}),\x03(?P<checksum>[\da-fA-F]{2})\r\n$`.
The Python `$` matches at the very end or just before one final newline,
hence the two admissible tails. Returns (speed, status, checksum,
extra-newline flag). -/
def wsParseSpeed (l : List Char) :
    Option (List Char × List Char × List Char × Bool) :=
  match l with
  | s1 :: s2 :: s3 :: '.' :: s4 :: s5 :: ',' :: 'M' :: ',' :: t1 :: t2 :: ','
      :: '\x03' :: h1 :: h2 :: tail =>
    if s1.isDigit ∧ s2.isDigit ∧ s3.isDigit ∧ s4.isDigit ∧ s5.isDigit ∧
        t1.isDigit ∧ t2.isDigit ∧ isHexDigit h1 ∧ isHexDigit h2 ∧
        (tail = ['\r', '\n'] ∨ tail = ['\r', '\n', '\n']) then
      some ([s1, s2, s3, '.', s4, s5], [t1, t2], [h1, h2],
        tail = ['\r', '\n', '\n'])
    else none
  | _ => none

/-- Direction stage `(?P<direction>\d{3})?,`: either the next character is
the comma (empty direction) or exactly three digits followed by the
comma. -/
def wsParseAfterQ (l : List Char) : Option WsGroups :=
  match l with
  | ',' :: rest =>
    (wsParseSpeed rest).map (fun r => ⟨none, r.1, r.2.1, r.2.2.1, r.2.2.2⟩)
  | d1 :: d2 :: d3 :: ',' :: rest =>
    if d1.isDigit ∧ d2.isDigit ∧ d3.isDigit then
      (wsParseSpeed rest).map
        (fun r => ⟨some [d1, d2, d3], r.1, r.2.1, r.2.2.1, r.2.2.2⟩)
    else none
  | _ => none

/-- Recognizer for `WindsonicSensor.telemetry_pattern` (the anchored
regex applied with `re.search`): `\x02Q,` then the direction stage. -/
def wsParse (line : List Char) : Option WsGroups :=
  match line with
  | '\x02' :: 'Q' :: ',' :: rest => wsParseAfterQ rest
  | _ => none

/-- The string the checksum is computed over,
`f"Q,{direction_str},{speed_str},M,{status},"`; by the shape of the
telemetry pattern this is also the frame body between STX and ETX. -/
def checksum_string (direction_str speed status : List Char) : List Char :=
  'Q' :: ',' :: direction_str ++ ',' :: speed ++ ',' :: 'M' :: ',' :: status
    ++ [',']

/-- `WindsonicSensor.default_direction_str`. -/
def default_direction_str : List Char := ['9', '9', '9']

/-- `WindsonicSensor.default_speed_str`. -/
def default_speed_str : List Char := "9999.9990".toList

/-- The full line a match decomposes into (used to state the parser's
inversion lemma): STX, body, ETX, checksum, CR LF and the optional extra
newline. -/
def renderLine (g : WsGroups) : List Char :=
  '\x02' :: checksum_string (g.dir.getD []) g.speed g.status ++ '\x03' :: g.cs
    ++ (if g.extraNL then ['\r', '\n', '\n'] else ['\r', '\n'])

/-- Translation of `WindsonicSensor.extract_telemetry`: on a pattern match
recompute the checksum over the reconstructed body and compare with the
transmitted checksum (mismatch gives `[nan, nan]`; a bad status is only
logged); otherwise the sentinel/empty checks and the float()/int()
conversions; a line equal to the bare terminator gives `[nan, nan]`; any
other line raises ValueError. -/
def extract_telemetry (line : List Char) : Except Unit (List PyVal) :=
  match wsParse line with
  | some g =>
    let direction_str := g.dir.getD []
    let checksum_val := hexValD g.cs
    let checksum := compute_checksum (checksum_string direction_str g.speed g.status)
    if checksum ≠ checksum_val then .ok [.nan, .nan]
    else
      match (if g.speed = default_speed_str then some PyVal.nan
             else (parseFloat g.speed).map PyVal.num),
            (if direction_str = default_direction_str ∨ direction_str = []
             then some PyVal.nan
             else (parseInt direction_str).map PyVal.num) with
      | some sp, some di => .ok [sp, di]
      | _, _ => .error ()
  | none =>
    if line = defaultTerminator then .ok [.nan, .nan] else .error ()

/-- Replace the byte at index `i` by its XOR with `mask` (the tampering
operation of the claim). -/
def xorAt : Nat → Nat → List Char → List Char
| _, _, [] => []
| 0, mask, c :: t => Char.ofNat (c.toNat ^^^ mask) :: t
| i + 1, mask, c :: t => c :: xorAt i mask t

/-- Well-formedness of a frame's field components: the shapes the
telemetry pattern requires. -/
def WFDir : Option (List Char) → Prop
| none => True
| some d => ∃ d1 d2 d3, d = [d1, d2, d3] ∧ d1.isDigit ∧ d2.isDigit ∧ d3.isDigit

/-- Speed field shape `\d{3}\.\d{2}`. -/
def WFSpeed (sp : List Char) : Prop :=
  ∃ s1 s2 s3 s4 s5, sp = [s1, s2, s3, '.', s4, s5] ∧
    s1.isDigit ∧ s2.isDigit ∧ s3.isDigit ∧ s4.isDigit ∧ s5.isDigit

/-- Status field shape `\d{2}`. -/
def WFStatus (st : List Char) : Prop :=
  ∃ t1 t2, st = [t1, t2] ∧ t1.isDigit ∧ t2.isDigit

/-- Checksum field shape `[\da-fA-F]{2}`. -/
def WFCs (cs : List Char) : Prop :=
  ∃ h1 h2, cs = [h1, h2] ∧ isHexDigit h1 ∧ isHexDigit h2

end Windsonic

/-! ## Air-flow accumulator (accumulator/air_flow_accumulator.py, utils.py) -/

namespace AirFlow

/-- Values of the airFlow topic fields: exact numbers, NaN, or the two
circular statistics of `get_circular_mean_and_std_dev` (utils.py) kept
symbolic, applied to the accumulated directions — they involve
transcendental functions and no claim inspects their numeric value. -/
inductive StatVal where
| num (q : ℚ)
| nan
| circMean (dirs : List ℚ)
| circStd (dirs : List ℚ)
deriving DecidableEq, Repr

/-- The keyword arguments `get_topic_kwargs` returns for the airFlow
topic. -/
structure Kwargs where
  timestamp : ℚ
  direction : StatVal
  directionStdDev : StatVal
  speed : StatVal
  speedStdDev : StatVal
  maxSpeed : StatVal
deriving DecidableEq, Repr

/-- The mutable attributes of `AirFlowAccumulator`. -/
structure State where
  num_samples : Nat
  timestamp : List ℚ
  speed : List ℚ
  direction : List ℚ
  num_bad_samples : Nat
deriving DecidableEq, Repr

/-- The state `__init__` builds (its `num_samples < 2` check raises
ValueError, embedded in `mk` below). -/
def fresh (num_samples : Nat) : State :=
  ⟨num_samples, [], [], [], 0⟩

/-- `AirFlowAccumulator.__init__`: raises ValueError when
`num_samples < 2`. -/
def mk (num_samples : Nat) : Option State :=
  if num_samples < 2 then none else some (fresh num_samples)

/-- `do_report`: `max(len(self.speed), self.num_bad_samples) >=
self.num_samples`. -/
def do_report (s : State) : Bool :=
  max s.speed.length s.num_bad_samples ≥ s.num_samples

/-- `add_sample`: append the good sample to the three parallel lists, or
count a bad one. -/
def add_sample (s : State) (timestamp speed direction : ℚ) (isok : Bool) :
    State :=
  if isok then
    { s with timestamp := s.timestamp ++ [timestamp],
             speed := s.speed ++ [speed],
             direction := s.direction ++ [direction] }
  else { s with num_bad_samples := s.num_bad_samples + 1 }

/-- `clear`. -/
def clear (s : State) : State :=
  { s with timestamp := [], speed := [], direction := [],
           num_bad_samples := 0 }

/-- Insertion into a sorted list (used to model the ascending sort
`np.quantile` performs). -/
def insertSorted (x : ℚ) : List ℚ → List ℚ
| [] => [x]
| y :: t => if x ≤ y then x :: y :: t else y :: insertSorted x t

/-- The ascending sort `np.quantile` performs on its data. -/
def pySort (l : List ℚ) : List ℚ := l.foldr insertSorted []

/-- `np.quantile(·, q)` with its default linear interpolation, given the
data already sorted: index `q * (n - 1)`, interpolating between the two
neighbouring order statistics. -/
def quantileSorted (sorted : List ℚ) (q : ℚ) : ℚ :=
  let n := sorted.length
  let pos : ℚ := q * ((n : ℚ) - 1)
  let i : Nat := (⌊pos⌋).toNat
  let frac : ℚ := pos - (i : ℚ)
  let xi := sorted.getD i 0
  let xi1 := sorted.getD (i + 1) xi
  xi + frac * (xi1 - xi)

/-- `np.quantile(data, q)`: sort, then interpolate. -/
def npQuantile (data : List ℚ) (q : ℚ) : ℚ :=
  quantileSorted (pySort data) q

/-- `np.max` on a nonempty array (np.max raises on an empty one; the
only call site has at least `num_samples ≥ 2` elements). -/
def npMax : List ℚ → ℚ
| [] => 0
| h :: t => t.foldl max h

/-- Translation of `get_median_and_std_dev` (utils.py):
`q25, median, q75 = np.quantile(data, [0.25, 0.5, 0.75])` and
`std_dev = _STD_DEV_FACTOR * (q75 - q25)` with `_STD_DEV_FACTOR = 0.741`. -/
def get_median_and_std_dev (data : List ℚ) : ℚ × ℚ :=
  let q25 := npQuantile data (1 / 4)
  let median := npQuantile data (1 / 2)
  let q75 := npQuantile data (3 / 4)
  (median, (741 / 1000) * (q75 - q25))

/-- Translation of `get_topic_kwargs`: `self.timestamp[-1]` is read first
and raises IndexError on an empty list (the `except` clause logs and
re-raises, embedded as `.error`); then the good path (enough good
samples), the bad path (enough bad samples), or the empty dict, the
first two clearing the accumulator. -/
def get_topic_kwargs (s : State) : Except Unit (Option Kwargs × State) :=
  match s.timestamp.getLast? with
  | none => .error ()
  | some timestamp =>
    if s.speed.length ≥ s.num_samples then
      let ms := get_median_and_std_dev s.speed
      .ok (some ⟨timestamp, .circMean s.direction, .circStd s.direction,
        .num ms.1, .num ms.2, .num (npMax s.speed)⟩, clear s)
    else if s.num_bad_samples ≥ s.num_samples then
      .ok (some ⟨timestamp, .num (-1), .num (-1), .nan, .nan, .nan⟩, clear s)
    else
      .ok (none, s)

/-- One sample fed to `add_sample` (claim-side bookkeeping). -/
structure Sample where
  timestamp : ℚ
  speed : ℚ
  direction : ℚ
  isok : Bool
deriving DecidableEq, Repr

/-- Feed a list of samples through `add_sample`. -/
def addSamples (s : State) (samples : List Sample) : State :=
  samples.foldl
    (fun st smp => add_sample st smp.timestamp smp.speed smp.direction smp.isok) s

/-- The textbook median (claim-side definition): middle order statistic
for odd length, mean of the two middle ones for even length. -/
def medianSpec (data : List ℚ) : ℚ :=
  let sorted := pySort data
  let n := sorted.length
  if n % 2 = 1 then sorted.getD (n / 2) 0
  else (sorted.getD (n / 2 - 1) 0 + sorted.getD (n / 2) 0) / 2

end AirFlow

/-! ## Read-loop data client (data_client/base_read_loop_data_client.py) -/

namespace ReadLoop

/-- The attributes of `BaseReadLoopDataClient` that `run`, `read_data`
success and the exception handler touch. -/
structure RLState where
  num_consecutive_read_timeouts : Nat
  timeout_event : Bool
  loop_should_end : Bool
  connected : Bool
deriving DecidableEq, Repr

/-- What ends the inner read loop of one outer iteration: `read_data`
raising a non-cancellation exception, or an `asyncio.CancelledError`. -/
inductive ReadEnd where
| exc
| cancel
deriving DecidableEq, Repr

/-- The observable behaviour of one iteration of the outer
`while not self.loop_should_end` body: `connect` or `setup_reading`
raising, or `k` successful `read_data` calls followed by the event that
ends the inner loop. -/
inductive IterInput where
| connectExc
| setupExc
| reads (k : Nat) (fin : ReadEnd)
deriving DecidableEq, Repr

/-- Result of one iteration: continue to the next iteration, exit the
loop normally (`loop_should_end` set by cancellation), or re-raise out
of `run`. -/
inductive IterResult where
| next (s : RLState)
| ended (s : RLState)
| raised (s : RLState)
deriving DecidableEq, Repr

/-- The state of an `IterResult`. -/
def IterResult.state : IterResult → RLState
| .next s => s
| .ended s => s
| .raised s => s

/-- The inner read loop after `k` successful `read_data` calls: every
success sets `num_consecutive_read_timeouts = 0` and clears the timeout
event. -/
def innerReads (s : RLState) (k : Nat) : RLState :=
  if k = 0 then s
  else { s with num_consecutive_read_timeouts := 0, timeout_event := false }

/-- The `finally` clause of the outer body: `await self.disconnect()`
(the reconnect sleep is timing only). -/
def finallyDisconnect (s : RLState) : RLState := { s with connected := false }

/-- The `except Exception` handler of `run`: increment the counter; once
it reaches `max_read_timeouts`, set `loop_should_end` and the timeout
event and re-raise; otherwise log, explicitly reset `loop_should_end`
to False and go round again. Both paths run the `finally` disconnect. -/
def handleExc (max_read_timeouts : Nat) (s : RLState) : IterResult :=
  let s1 := { s with num_consecutive_read_timeouts :=
    s.num_consecutive_read_timeouts + 1 }
  if s1.num_consecutive_read_timeouts ≥ max_read_timeouts then
    .raised (finallyDisconnect
      { s1 with loop_should_end := true, timeout_event := true })
  else
    .next (finallyDisconnect { s1 with loop_should_end := false })

/-- One iteration of the outer body of `run`: connect if needed (raising
is `connectExc`; `setup_reading` raising is `setupExc`), then the inner
read loop, then the exception handler / cancellation handler / finally
clause. -/
def iterate (max_read_timeouts : Nat) (s : RLState) (inp : IterInput) :
    IterResult :=
  match inp with
  | .connectExc => handleExc max_read_timeouts s
  | .setupExc => handleExc max_read_timeouts { s with connected := true }
  | .reads k fin =>
    let s1 := innerReads { s with connected := true } k
    match fin with
    | .exc => handleExc max_read_timeouts s1
    | .cancel =>
      .ended (finallyDisconnect { s1 with loop_should_end := true })

/-- The outer loop of `run` over a list of iteration behaviours. -/
def runFrom (max_read_timeouts : Nat) : RLState → List IterInput → IterResult
| s, [] => .next s
| s, inp :: rest =>
  match iterate max_read_timeouts s inp with
  | .next s1 => runFrom max_read_timeouts s1 rest
  | r => r

/-- `run`: reset the counter and clear the timeout event, then loop. -/
def run (max_read_timeouts : Nat) (s : RLState) (inputs : List IterInput) :
    IterResult :=
  runFrom max_read_timeouts
    { s with num_consecutive_read_timeouts := 0, timeout_event := false }
    inputs

end ReadLoop

/-! ## Command handler (abstract_command_handler.py) -/

namespace Handler

/-- `ResponseCode` (constants.py). -/
def OK : Nat := 0

/-- `ResponseCode.NOT_CONFIGURED`. -/
def NOT_CONFIGURED : Nat := 1

/-- `ResponseCode.NOT_STARTED`. -/
def NOT_STARTED : Nat := 2

/-- `ResponseCode.ALREADY_STARTED`. -/
def ALREADY_STARTED : Nat := 3

/-- `ResponseCode.INVALID_CONFIGURATION`. -/
def INVALID_CONFIGURATION : Nat := 4

/-- The mutable attributes of `AbstractCommandHandler`: the stored
configuration, the started flag and the opened devices. `C` is the type
of configurations, `D` of devices. -/
structure HState (C D : Type) where
  configuration : Option C
  started : Bool
  devices : List D
deriving DecidableEq, Repr

/-- The environment the handler model is parameterized by: whether
`jsonschema.validate(cfg, CONFIG_SCHEMA)` succeeds, Python truthiness of
a stored configuration dict, the device list of a configuration, and
whether constructing/opening (resp. closing) a device raises a
non-CommandError exception. -/
structure Env (C D : Type) where
  valid : C → Bool
  truthy : C → Bool
  devicesOf : C → List D
  openFail : D → Bool
  closeFail : D → Bool

/-- Outcome of one dispatched coroutine: normal return, a raised
`CommandError` with its response code, or any other exception. Each
carries the handler state left behind. -/
inductive CmdResult (C D : Type) where
| ok (s : HState C D)
| cmdError (code : Nat) (s : HState C D)
| exc (s : HState C D)
deriving DecidableEq

/-- Translation of `configure`: when started raise
CommandError(ALREADY_STARTED); then `_validate_configuration` raises
CommandError(INVALID_CONFIGURATION) on schema failure; else store the
configuration. -/
def configure {C D : Type} (env : Env C D) (s : HState C D) (cfg : C) :
    CmdResult C D :=
  if s.started then .cmdError ALREADY_STARTED s
  else if ¬ env.valid cfg then .cmdError INVALID_CONFIGURATION s
  else .ok { s with configuration := some cfg }

/-- The device loop of `start_sending_telemetry`: each device is appended
to `self._devices` and then opened; an open failure propagates with the
devices appended so far. Returns the final device list and whether an
open raised. -/
def openDevices {C D : Type} (env : Env C D) :
    List D → List D → List D × Bool
| acc, [] => (acc, false)
| acc, d :: rest =>
  if env.openFail d then (acc ++ [d], true)
  else openDevices env (acc ++ [d]) rest

/-- Translation of `start_sending_telemetry`: `if not
self._configuration` (None or a falsy dict) raises
CommandError(NOT_CONFIGURED); else reset `self._devices`, create and
open every configured device, then set `_started`. -/
def start_sending_telemetry {C D : Type} (env : Env C D) (s : HState C D) :
    CmdResult C D :=
  match s.configuration with
  | none => .cmdError NOT_CONFIGURED s
  | some cfg =>
    if ¬ env.truthy cfg then .cmdError NOT_CONFIGURED s
    else
      match openDevices env [] (env.devicesOf cfg) with
      | (devs, true) => .exc { s with devices := devs }
      | (devs, false) => .ok { s with devices := devs, started := true }

/-- The `while self._devices` loop of `stop_sending_telemetry`, operating
on the reversed device list (devices are popped from the end): a close
failure propagates with the not-yet-popped devices still stored. -/
def closeLoop {C D : Type} (env : Env C D) : List D → List D × Bool
| [] => ([], false)
| d :: rest =>
  if env.closeFail d then (rest, true)
  else closeLoop env rest

/-- Translation of `stop_sending_telemetry`: when not started raise
CommandError(NOT_STARTED); else pop and close every device, then clear
`_started`. -/
def stop_sending_telemetry {C D : Type} (env : Env C D) (s : HState C D) :
    CmdResult C D :=
  if ¬ s.started then .cmdError NOT_STARTED s
  else
    match closeLoop env s.devices.reverse with
    | (remRev, true) => .exc { s with devices := remRev.reverse }
    | (_, false) => .ok { s with devices := [], started := false }

/-- A command string: the three keys of `dispatch_dict`, or any other
string. -/
inductive Cmd (C : Type) where
| configure (cfg : C)
| start
| stop
| unrecognized
deriving DecidableEq

/-- The exceptions `handle_command` can let escape: the KeyError of the
dispatch lookup, or a re-raised non-CommandError exception from the
dispatched coroutine. -/
inductive PyExc where
| keyError
| reraised
deriving DecidableEq, Repr

/-- The dispatched coroutine `self.dispatch_dict[command]` for a
recognized command. -/
def dispatch {C D : Type} (env : Env C D) (s : HState C D) : Cmd C →
    CmdResult C D
| .configure cfg => configure env s cfg
| .start => start_sending_telemetry env s
| .stop => stop_sending_telemetry env s
| .unrecognized => .exc s

/-- Translation of `handle_command`: the dispatch lookup raises KeyError
for an unrecognized command before anything runs; otherwise run the
coroutine and send exactly one reply through the callback — OK on normal
return, the CommandError's response code when one is raised — while any
other exception is logged and re-raised with no reply sent. The first
component collects the replies sent. -/
def handle_command {C D : Type} (env : Env C D) (s : HState C D)
    (cmd : Cmd C) : List Nat × Except (PyExc × HState C D) (HState C D) :=
  match cmd with
  | .unrecognized => ([], .error (.keyError, s))
  | c =>
    match dispatch env s c with
    | .ok s1 => ([OK], .ok s1)
    | .cmdError code s1 => ([code], .ok s1)
    | .exc s1 => ([], .error (.reraised, s1))

end Handler

/-! ## Theorems -/

namespace Handler

/-- The device loop with no failing open appends every configured
device and reports success. -/
theorem openDevices_no_fail {C D : Type} (env : Env C D) (ds : List D)
    (h : ∀ d ∈ ds, env.openFail d = false) (acc : List D) :
    openDevices env acc ds = (acc ++ ds, false) := by
  induction ds generalizing acc with
  | nil => simp [openDevices]
  | cons d rest ih =>
    have hd : env.openFail d = false := h d (by simp)
    have hrest : ∀ x ∈ rest, env.openFail x = false := by
      intro x hx
      exact h x (by simp [hx])
    simp [openDevices, hd, ih hrest, List.append_assoc]

end Handler

namespace ReadLoop

/-- A re-raise out of the outer loop comes from a re-raise of some single
iteration. -/
theorem runFrom_raised (m : Nat) (inputs : List IterInput) (s sr : RLState)
    (h : runFrom m s inputs = .raised sr) :
    ∃ s0 inp, iterate m s0 inp = .raised sr := by
  induction inputs generalizing s with
  | nil => simp [runFrom] at h
  | cons inp rest ih =>
    rw [runFrom] at h
    rcases hit : iterate m s inp with s1 | s1 | s1 <;> rw [hit] at h
    · exact ih s1 h
    · simp at h
    · simp at h
      exact ⟨s, inp, by rw [hit, h]⟩

/-- An iteration re-raises exactly when the incremented counter reached
the limit; the raised-state facts needed below. -/
theorem iterate_raised (m : Nat) (s sr : RLState) (inp : IterInput)
    (h : iterate m s inp = .raised sr) :
    m ≤ sr.num_consecutive_read_timeouts ∧ sr.timeout_event = true ∧
      sr.loop_should_end = true ∧ sr.connected = false := by
  cases inp with
  | connectExc =>
    rw [iterate, handleExc] at h
    split at h
    · rename_i hge
      cases h
      exact ⟨hge, rfl, rfl, rfl⟩
    · simp at h
  | setupExc =>
    rw [iterate, handleExc] at h
    split at h
    · rename_i hge
      cases h
      exact ⟨hge, rfl, rfl, rfl⟩
    · simp at h
  | reads k fin =>
    cases fin with
    | exc =>
      rw [iterate] at h
      simp only [handleExc] at h
      split at h
      · rename_i hge
        cases h
        exact ⟨hge, rfl, rfl, rfl⟩
      · simp at h
    | cancel =>
      rw [iterate] at h
      simp at h

end ReadLoop

/-- C2: in `BaseReadLoopDataClient.run`, every successful `read_data`
resets the consecutive-timeout counter to zero and clears the timeout
event; an iteration in which `connect`, `setup_reading` or `read_data`
raises a non-cancellation exception increments the counter (from its
value after the resets of that iteration's successful reads); whenever
that incremented counter reaches `max_read_timeouts`, the iteration
re-raises — it returns `.raised` with the timeout event set,
`loop_should_end` true and the `finally` disconnect done — and the
outer loop then terminates at once, consuming no further iterations;
conversely any raise out of `run` carries those facts. -/
theorem run_counts_consecutive_timeouts (m : Nat) (s sr : ReadLoop.RLState) (k : Nat)
    (inp : ReadLoop.IterInput) (inputs rest : List ReadLoop.IterInput) :
    (0 < k → (ReadLoop.innerReads s k).num_consecutive_read_timeouts = 0 ∧
      (ReadLoop.innerReads s k).timeout_event = false) ∧
    ((ReadLoop.iterate m s .connectExc).state.num_consecutive_read_timeouts =
      s.num_consecutive_read_timeouts + 1) ∧
    ((ReadLoop.iterate m s .setupExc).state.num_consecutive_read_timeouts =
      s.num_consecutive_read_timeouts + 1) ∧
    ((ReadLoop.iterate m s (.reads k .exc)).state.num_consecutive_read_timeouts =
      (ReadLoop.innerReads s k).num_consecutive_read_timeouts + 1) ∧
    (m ≤ s.num_consecutive_read_timeouts + 1 →
      ReadLoop.iterate m s .connectExc =
        .raised ⟨s.num_consecutive_read_timeouts + 1, true, true, false⟩ ∧
      ReadLoop.iterate m s .setupExc =
        .raised ⟨s.num_consecutive_read_timeouts + 1, true, true, false⟩) ∧
    (m ≤ (ReadLoop.innerReads s k).num_consecutive_read_timeouts + 1 →
      ReadLoop.iterate m s (.reads k .exc) =
        .raised ⟨(ReadLoop.innerReads s k).num_consecutive_read_timeouts + 1,
          true, true, false⟩) ∧
    (ReadLoop.iterate m s inp = .raised sr →
      ReadLoop.runFrom m s (inp :: rest) = .raised sr) ∧
    (ReadLoop.run m s inputs = .raised sr →
      m ≤ sr.num_consecutive_read_timeouts ∧ sr.timeout_event = true ∧
        sr.loop_should_end = true ∧ sr.connected = false) := by
  have hc : (ReadLoop.innerReads { s with connected := true } k).num_consecutive_read_timeouts
      = (ReadLoop.innerReads s k).num_consecutive_read_timeouts := by
    by_cases h0 : k = 0 <;> simp [ReadLoop.innerReads, h0]
  refine ⟨?_, ?_, ?_, ?_, ?_, ?_, ?_, ?_⟩
  · intro hk
    have : k ≠ 0 := Nat.pos_iff_ne_zero.mp hk
    simp [ReadLoop.innerReads, this]
  · rw [ReadLoop.iterate, ReadLoop.handleExc]
    split <;> simp [ReadLoop.IterResult.state, ReadLoop.finallyDisconnect]
  · rw [ReadLoop.iterate, ReadLoop.handleExc]
    split <;> simp [ReadLoop.IterResult.state, ReadLoop.finallyDisconnect]
  · rw [ReadLoop.iterate]
    simp only [ReadLoop.handleExc]
    split <;>
      simp [ReadLoop.IterResult.state, ReadLoop.finallyDisconnect, hc]
  · intro hge
    constructor
    · rw [ReadLoop.iterate, ReadLoop.handleExc, if_pos (by simpa using hge)]
      rfl
    · rw [ReadLoop.iterate, ReadLoop.handleExc, if_pos (by simpa using hge)]
      rfl
  · intro hge
    rw [ReadLoop.iterate]
    simp only [ReadLoop.handleExc]
    rw [if_pos (by simpa [hc] using hge)]
    simp [ReadLoop.finallyDisconnect, hc]
  · intro h
    rw [ReadLoop.runFrom, h]
  · intro h
    rcases ReadLoop.runFrom_raised m inputs _ sr h with ⟨s0, inp0, hit⟩
    exact ReadLoop.iterate_raised m s0 sr inp0 hit

/-- C2 witness: the theorem applied with `max_read_timeouts = 1` to a
connected state: the first read raising reaches the limit, so the
iteration is forced to re-raise (event set, loop ended, disconnected)
and `run` terminates at once. -/
theorem run_counts_consecutive_timeouts_witness :
    (0 < 1 → (ReadLoop.innerReads ⟨0, false, false, true⟩ 1).num_consecutive_read_timeouts = 0 ∧
      (ReadLoop.innerReads ⟨0, false, false, true⟩ 1).timeout_event = false) ∧
    ((ReadLoop.iterate 1 ⟨0, false, false, true⟩ .connectExc).state.num_consecutive_read_timeouts =
      (0 : Nat) + 1) ∧
    ((ReadLoop.iterate 1 ⟨0, false, false, true⟩ .setupExc).state.num_consecutive_read_timeouts =
      (0 : Nat) + 1) ∧
    ((ReadLoop.iterate 1 ⟨0, false, false, true⟩ (.reads 1 .exc)).state.num_consecutive_read_timeouts =
      (ReadLoop.innerReads ⟨0, false, false, true⟩ 1).num_consecutive_read_timeouts + 1) ∧
    (1 ≤ (0 : Nat) + 1 →
      ReadLoop.iterate 1 ⟨0, false, false, true⟩ .connectExc =
        .raised ⟨(0 : Nat) + 1, true, true, false⟩ ∧
      ReadLoop.iterate 1 ⟨0, false, false, true⟩ .setupExc =
        .raised ⟨(0 : Nat) + 1, true, true, false⟩) ∧
    (1 ≤ (ReadLoop.innerReads ⟨0, false, false, true⟩ 1).num_consecutive_read_timeouts + 1 →
      ReadLoop.iterate 1 ⟨0, false, false, true⟩ (.reads 1 .exc) =
        .raised ⟨(ReadLoop.innerReads ⟨0, false, false, true⟩ 1).num_consecutive_read_timeouts + 1,
          true, true, false⟩) ∧
    (ReadLoop.iterate 1 ⟨0, false, false, true⟩ (.reads 0 .exc) = .raised ⟨1, true, true, false⟩ →
      ReadLoop.runFrom 1 ⟨0, false, false, true⟩ [.reads 0 .exc] = .raised ⟨1, true, true, false⟩) ∧
    (ReadLoop.run 1 ⟨0, false, false, true⟩ [.reads 0 .exc] = .raised ⟨1, true, true, false⟩ →
      1 ≤ (⟨1, true, true, false⟩ : ReadLoop.RLState).num_consecutive_read_timeouts ∧
        (⟨1, true, true, false⟩ : ReadLoop.RLState).timeout_event = true ∧
        (⟨1, true, true, false⟩ : ReadLoop.RLState).loop_should_end = true ∧
        (⟨1, true, true, false⟩ : ReadLoop.RLState).connected = false) := by
  have h := run_counts_consecutive_timeouts 1 ⟨0, false, false, true⟩
    ⟨1, true, true, false⟩ 1 (.reads 0 .exc) [.reads 0 .exc] []
  exact h

/-- C1: for the line `0.08945,0.06552,0.05726,19.69336,0,5,c3a7\r` the
recomputed signature (over the line with the trailing comma and sig
field stripped) is 0xc3a6, which differs from the transmitted 0xc3a7;
yet `extract_telemetry` returns the parsed values — including the bad
signature — rather than the invalidated `_NANS_OUTPUT` record the claim
(and the repository's own test `test_extract_telemetry`) require. -/
theorem csat3b_ignores_signature_mismatch :
    Csat3b.compute_signature "0.08945,0.06552,0.05726,19.69336,0,5".toList ',' = 0xc3a6 ∧
    (0xc3a6 : Nat) ≠ 0xc3a7 ∧
    Csat3b.extract_telemetry "0.08945,0.06552,0.05726,19.69336,0,5,c3a7\r".toList =
      .ok [.num (8945 / 100000), .num (6552 / 100000), .num (5726 / 100000),
        .num (1969336 / 100000), .num 0, .num 5, .num 0xc3a7] ∧
    Csat3b.extract_telemetry "0.08945,0.06552,0.05726,19.69336,0,5,c3a7\r".toList ≠
      .ok Csat3b.nansOutput := by
  refine ⟨by decide, by decide, by decide, by decide⟩

/-- C3: `get_topic_kwargs` reads `self.timestamp[-1]` before any guard,
so with no good sample accumulated it raises IndexError instead of
returning the empty mapping (when `do_report` is false) or the bad-data
mapping (after `num_samples` bad samples), contradicting the claim and
the method's own docstring. -/
theorem get_topic_kwargs_raises_on_empty :
    (AirFlow.do_report (AirFlow.fresh 2) = false ∧
      AirFlow.get_topic_kwargs (AirFlow.fresh 2) = .error ()) ∧
    (AirFlow.do_report
        (AirFlow.addSamples (AirFlow.fresh 2) [⟨0, 0, 0, false⟩, ⟨0, 0, 0, false⟩]) = true ∧
      AirFlow.get_topic_kwargs
        (AirFlow.addSamples (AirFlow.fresh 2) [⟨0, 0, 0, false⟩, ⟨0, 0, 0, false⟩]) =
        .error ()) := by
  refine ⟨⟨by decide, by decide⟩, ⟨by decide, by decide⟩⟩

namespace AirFlow

/-- Feeding only good samples appends their fields to the three parallel
lists and leaves the bad-sample counter alone. -/
theorem addSamples_ok (samples : List Sample) (s : State)
    (hok : ∀ x ∈ samples, x.isok = true) :
    addSamples s samples =
      { s with timestamp := s.timestamp ++ samples.map (fun x => x.timestamp),
               speed := s.speed ++ samples.map (fun x => x.speed),
               direction := s.direction ++ samples.map (fun x => x.direction) } := by
  induction samples generalizing s with
  | nil => simp [addSamples]
  | cons x t ih =>
    have hx : x.isok = true := hok x (by simp)
    have ht : ∀ y ∈ t, y.isok = true := fun y hy => hok y (by simp [hy])
    show addSamples (add_sample s x.timestamp x.speed x.direction x.isok) t = _
    rw [ih _ ht]
    simp [add_sample, hx]

/-- The good path of `get_topic_kwargs`, written out: last timestamp,
symbolic circular statistics, quantile median, 0.741-scaled IQR, max;
then the accumulator is cleared. -/
theorem get_topic_kwargs_good (s : State) (tl : ℚ)
    (hlast : s.timestamp.getLast? = some tl)
    (hlen : s.num_samples ≤ s.speed.length) :
    get_topic_kwargs s = .ok (some
      ⟨tl, .circMean s.direction, .circStd s.direction,
        .num (npQuantile s.speed (1 / 2)),
        .num ((741 / 1000) * (npQuantile s.speed (3 / 4) - npQuantile s.speed (1 / 4))),
        .num (npMax s.speed)⟩, clear s) := by
  rw [get_topic_kwargs, hlast]
  simp [ge_iff_le, hlen, get_median_and_std_dev]

/-- Inserting into a list grows it by one element. -/
theorem insertSorted_length (x : ℚ) (l : List ℚ) :
    (insertSorted x l).length = l.length + 1 := by
  induction l with
  | nil => rfl
  | cons y t ih =>
    rw [insertSorted]
    split
    · simp
    · simp [ih]

/-- Sorting preserves length. -/
theorem pySort_length (l : List ℚ) : (pySort l).length = l.length := by
  induction l with
  | nil => rfl
  | cons x t ih =>
    show (insertSorted x (pySort t)).length = t.length + 1
    rw [insertSorted_length, ih]

/-- The interpolated 0.5-quantile of a nonempty sorted list is the
textbook median of that list. -/
theorem quantileSorted_half (m : List ℚ) (h1 : 1 ≤ m.length) :
    quantileSorted m (1 / 2) =
      (if m.length % 2 = 1 then m.getD (m.length / 2) 0
       else (m.getD (m.length / 2 - 1) 0 + m.getD (m.length / 2) 0) / 2) := by
  rcases Nat.even_or_odd m.length with he | ho
  · obtain ⟨k, hk⟩ := he
    have hk2 : m.length = 2 * k := by omega
    have hkpos : 1 ≤ k := by omega
    have hmod : m.length % 2 = 0 := by omega
    have hdiv : m.length / 2 = k := by omega
    have hkq : (1 : ℚ) ≤ (k : ℚ) := by exact_mod_cast hkpos
    have hpos : (1 / 2 : ℚ) * ((m.length : ℚ) - 1) = (k : ℚ) - 1 / 2 := by
      rw [hk2]; push_cast; ring
    have hfloor : ⌊(k : ℚ) - 1 / 2⌋ = (k : ℤ) - 1 := by
      rw [Int.floor_eq_iff]
      constructor
      · push_cast
        linarith
      · push_cast
        linarith
    have htn : ((k : ℤ) - 1).toNat = k - 1 := by omega
    have hk1 : k - 1 + 1 = k := by omega
    have hklt : k < m.length := by omega
    have hklt1 : k - 1 < m.length := by omega
    have hfrac : (k : ℚ) - 1 / 2 - ((k - 1 : ℕ) : ℚ) = 1 / 2 := by
      have hc : ((k - 1 : ℕ) : ℚ) = (k : ℚ) - 1 := by
        push_cast [hkpos]
        ring
      rw [hc]; ring
    simp only [quantileSorted, hpos, hfloor, htn, hk1, hfrac, hdiv]
    rw [if_neg (by omega)]
    rw [List.getD_eq_getElem m (m.getD (k - 1) 0) hklt,
      List.getD_eq_getElem m 0 hklt, List.getD_eq_getElem m 0 hklt1]
    ring
  · obtain ⟨k, hk⟩ := ho
    have hmod : m.length % 2 = 1 := by omega
    have hdiv : m.length / 2 = k := by omega
    have hpos : (1 / 2 : ℚ) * ((m.length : ℚ) - 1) = (k : ℚ) := by
      rw [hk]; push_cast; ring
    have hfloor : ⌊(k : ℚ)⌋ = (k : ℤ) := Int.floor_natCast k
    rw [quantileSorted, hpos, hfloor, Int.toNat_natCast]
    rw [if_pos hmod, hdiv]
    have : (k : ℚ) - (k : ℚ) = 0 := by ring
    rw [this]
    ring

/-- `np.quantile(data, 0.5)` is the textbook median. -/
theorem npQuantile_half (data : List ℚ) (h1 : 1 ≤ data.length) :
    npQuantile data (1 / 2) = medianSpec data := by
  rw [npQuantile, medianSpec, quantileSorted_half _ (by rw [pySort_length]; exact h1)]

/-- A left fold of `max` stays in the list of candidates. -/
theorem foldl_max_mem (t : List ℚ) (a : ℚ) : t.foldl max a ∈ a :: t := by
  induction t generalizing a with
  | nil => simp
  | cons y t ih =>
    have h := ih (max a y)
    rcases List.mem_cons.mp h with h1 | h1
    · rcases max_choice a y with hm | hm <;> rw [List.foldl_cons, h1, hm] <;> simp
    · rw [List.foldl_cons]
      exact List.mem_cons.mpr (Or.inr (List.mem_cons.mpr (Or.inr h1)))

/-- A left fold of `max` bounds its seed and every element. -/
theorem le_foldl_max (t : List ℚ) (a : ℚ) :
    a ≤ t.foldl max a ∧ ∀ x ∈ t, x ≤ t.foldl max a := by
  induction t generalizing a with
  | nil => simp
  | cons y t ih =>
    have h := ih (max a y)
    refine ⟨le_trans (le_max_left a y) h.1, ?_⟩
    intro x hx
    rcases List.mem_cons.mp hx with h1 | h1
    · rw [List.foldl_cons, h1]
      exact le_trans (le_max_right a y) h.1
    · rw [List.foldl_cons]
      exact h.2 x h1

/-- `np.max` of a nonempty list is an element of it. -/
theorem npMax_mem (l : List ℚ) (h : l ≠ []) : npMax l ∈ l := by
  cases l with
  | nil => exact absurd rfl h
  | cons x t => exact foldl_max_mem t x

/-- `np.max` bounds every element of the list. -/
theorem npMax_le (l : List ℚ) : ∀ x ∈ l, x ≤ npMax l := by
  cases l with
  | nil => simp
  | cons y t =>
    intro x hx
    rcases List.mem_cons.mp hx with h1 | h1
    · rw [h1, npMax]
      exact (le_foldl_max t y).1
    · exact (le_foldl_max t y).2 x h1

end AirFlow

/-- C4 counterexample: two good samples with speeds 0 and 4
(num_samples = 2). The IQR of the speeds is q75 − q25 = 3 − 1 = 2, and
`get_topic_kwargs` reports speedStdDev = 0.741 · 2 = 1.482, not the
claimed 0.7413 · 2 = 1.4826: `_STD_DEV_FACTOR` is 0.741, not 0.7413. -/
theorem speed_std_dev_factor_counterexample :
    AirFlow.get_topic_kwargs
        (AirFlow.addSamples (AirFlow.fresh 2) [⟨0, 0, 10, true⟩, ⟨1, 4, 20, true⟩]) =
      .ok (some ⟨1, .circMean [10, 20], .circStd [10, 20], .num 2,
        .num (1482 / 1000), .num 4⟩, AirFlow.fresh 2) ∧
    AirFlow.npQuantile [0, 4] (3 / 4) = 3 ∧
    AirFlow.npQuantile [0, 4] (1 / 4) = 1 ∧
    (1482 / 1000 : ℚ) ≠ (7413 / 10000) * (3 - 1) := by
  refine ⟨by decide, by decide, by decide, by decide⟩

/-- C4 (amended: the factor is 0.741, not 0.7413): on the good path of
`get_topic_kwargs` — at least `num_samples ≥ 2` good samples, here all
samples good — the reported speedStdDev is 0.741 times the interquartile
range of the accumulated speeds, 0.741 · (q75 − q25) with q25/q75 the
interpolated quartiles `np.quantile` yields. -/
theorem speed_std_dev_is_0741_iqr (ns : Nat) (samples : List AirFlow.Sample)
    (h2 : 2 ≤ ns) (hok : ∀ x ∈ samples, x.isok = true)
    (hlen : ns ≤ samples.length) :
    ∃ kw : AirFlow.Kwargs,
      AirFlow.get_topic_kwargs (AirFlow.addSamples (AirFlow.fresh ns) samples) =
        .ok (some kw, AirFlow.fresh ns) ∧
      kw.speedStdDev = .num ((741 / 1000) *
        (AirFlow.npQuantile (samples.map (fun x => x.speed)) (3 / 4) -
         AirFlow.npQuantile (samples.map (fun x => x.speed)) (1 / 4))) := by
  have hs := AirFlow.addSamples_ok samples (AirFlow.fresh ns) hok
  have hne : samples ≠ [] := by
    intro hnil
    rw [hnil] at hlen
    simp at hlen
    omega
  obtain ⟨lastS, hlastS⟩ :=
    Option.isSome_iff_exists.mp (List.getLast?_isSome.mpr hne)
  have hlast2 : (AirFlow.addSamples (AirFlow.fresh ns) samples).timestamp.getLast? =
      some lastS.timestamp := by
    rw [hs]
    show (samples.map (fun x => x.timestamp)).getLast? = _
    rw [List.getLast?_map, hlastS]
    rfl
  have hlen2 : (AirFlow.addSamples (AirFlow.fresh ns) samples).num_samples ≤
      (AirFlow.addSamples (AirFlow.fresh ns) samples).speed.length := by
    rw [hs]
    simpa [AirFlow.fresh] using hlen
  have key := AirFlow.get_topic_kwargs_good _ _ hlast2 hlen2
  rw [hs] at key ⊢
  refine ⟨⟨lastS.timestamp,
    .circMean (samples.map (fun x => x.direction)),
    .circStd (samples.map (fun x => x.direction)),
    .num (AirFlow.npQuantile (samples.map (fun x => x.speed)) (1 / 2)),
    .num ((741 / 1000) * (AirFlow.npQuantile (samples.map (fun x => x.speed)) (3 / 4) -
      AirFlow.npQuantile (samples.map (fun x => x.speed)) (1 / 4))),
    .num (AirFlow.npMax (samples.map (fun x => x.speed)))⟩, ?_, rfl⟩
  rw [key]
  rfl

/-- C4 witness: the amended theorem at num_samples = 2 with the two good
samples of speeds 0 and 4. -/
theorem speed_std_dev_is_0741_iqr_witness :
    ∃ kw : AirFlow.Kwargs,
      AirFlow.get_topic_kwargs
          (AirFlow.addSamples (AirFlow.fresh 2) [⟨0, 0, 10, true⟩, ⟨1, 4, 20, true⟩]) =
        .ok (some kw, AirFlow.fresh 2) ∧
      kw.speedStdDev = .num ((741 / 1000) *
        (AirFlow.npQuantile ([⟨0, 0, 10, true⟩, ⟨1, 4, 20, true⟩].map
          (fun x : AirFlow.Sample => x.speed)) (3 / 4) -
         AirFlow.npQuantile ([⟨0, 0, 10, true⟩, ⟨1, 4, 20, true⟩].map
          (fun x : AirFlow.Sample => x.speed)) (1 / 4))) :=
  speed_std_dev_is_0741_iqr 2 [⟨0, 0, 10, true⟩, ⟨1, 4, 20, true⟩]
    (by decide) (by decide) (by decide)

/-- C5: after n good samples with n ≥ num_samples (and no bad samples),
`get_topic_kwargs` returns a non-empty mapping whose speed is the median
of the accumulated speeds, whose maxSpeed is their maximum (an element
of the speeds bounding all of them), and whose timestamp is the
timestamp of the last good sample; afterwards every sample list is
empty and the bad-sample counter is zero (the accumulator is the fresh
one again). -/
theorem airflow_good_report (ns : Nat) (samples : List AirFlow.Sample)
    (lastS : AirFlow.Sample) (h2 : 2 ≤ ns)
    (hok : ∀ x ∈ samples, x.isok = true) (hlen : ns ≤ samples.length)
    (hlast : samples.getLast? = some lastS) :
    ∃ kw : AirFlow.Kwargs,
      AirFlow.get_topic_kwargs (AirFlow.addSamples (AirFlow.fresh ns) samples) =
        .ok (some kw, AirFlow.fresh ns) ∧
      kw.speed = .num (AirFlow.medianSpec (samples.map (fun x => x.speed))) ∧
      kw.maxSpeed = .num (AirFlow.npMax (samples.map (fun x => x.speed))) ∧
      AirFlow.npMax (samples.map (fun x => x.speed)) ∈ samples.map (fun x => x.speed) ∧
      (∀ x ∈ samples.map (fun x => x.speed),
        x ≤ AirFlow.npMax (samples.map (fun x => x.speed))) ∧
      kw.timestamp = lastS.timestamp := by
  have hs := AirFlow.addSamples_ok samples (AirFlow.fresh ns) hok
  have hne : samples ≠ [] := by
    intro hnil
    rw [hnil] at hlen
    simp at hlen
    omega
  have hlast2 : (AirFlow.addSamples (AirFlow.fresh ns) samples).timestamp.getLast? =
      some lastS.timestamp := by
    rw [hs]
    show (samples.map (fun x => x.timestamp)).getLast? = _
    rw [List.getLast?_map, hlast]
    rfl
  have hlen2 : (AirFlow.addSamples (AirFlow.fresh ns) samples).num_samples ≤
      (AirFlow.addSamples (AirFlow.fresh ns) samples).speed.length := by
    rw [hs]
    simpa [AirFlow.fresh] using hlen
  have hmapne : samples.map (fun x => x.speed) ≠ [] := by
    simpa using hne
  have hlen1 : 1 ≤ (samples.map (fun x => x.speed)).length := by
    rw [List.length_map]
    omega
  have key := AirFlow.get_topic_kwargs_good _ _ hlast2 hlen2
  rw [hs] at key ⊢
  refine ⟨⟨lastS.timestamp,
    .circMean (samples.map (fun x => x.direction)),
    .circStd (samples.map (fun x => x.direction)),
    .num (AirFlow.npQuantile (samples.map (fun x => x.speed)) (1 / 2)),
    .num ((741 / 1000) * (AirFlow.npQuantile (samples.map (fun x => x.speed)) (3 / 4) -
      AirFlow.npQuantile (samples.map (fun x => x.speed)) (1 / 4))),
    .num (AirFlow.npMax (samples.map (fun x => x.speed)))⟩,
    ?_, ?_, rfl, ?_, ?_, rfl⟩
  · rw [key]
    rfl
  · show AirFlow.StatVal.num (AirFlow.npQuantile (samples.map (fun x => x.speed)) (1 / 2)) = _
    rw [AirFlow.npQuantile_half _ hlen1]
  · exact AirFlow.npMax_mem _ hmapne
  · exact AirFlow.npMax_le _

/-- C5 witness: the theorem with num_samples = 2 and the three good
samples (1, 5, 30), (2, 3, 40), (7, 4, 50). -/
theorem airflow_good_report_witness :
    ∃ kw : AirFlow.Kwargs,
      AirFlow.get_topic_kwargs (AirFlow.addSamples (AirFlow.fresh 2)
          [⟨1, 5, 30, true⟩, ⟨2, 3, 40, true⟩, ⟨7, 4, 50, true⟩]) =
        .ok (some kw, AirFlow.fresh 2) ∧
      kw.speed = .num (AirFlow.medianSpec
        ([⟨1, 5, 30, true⟩, ⟨2, 3, 40, true⟩, ⟨7, 4, 50, true⟩].map
          (fun x : AirFlow.Sample => x.speed))) ∧
      kw.maxSpeed = .num (AirFlow.npMax
        ([⟨1, 5, 30, true⟩, ⟨2, 3, 40, true⟩, ⟨7, 4, 50, true⟩].map
          (fun x : AirFlow.Sample => x.speed))) ∧
      AirFlow.npMax ([⟨1, 5, 30, true⟩, ⟨2, 3, 40, true⟩, ⟨7, 4, 50, true⟩].map
          (fun x : AirFlow.Sample => x.speed)) ∈
        [⟨1, 5, 30, true⟩, ⟨2, 3, 40, true⟩, ⟨7, 4, 50, true⟩].map
          (fun x : AirFlow.Sample => x.speed) ∧
      (∀ x ∈ [⟨1, 5, 30, true⟩, ⟨2, 3, 40, true⟩, ⟨7, 4, 50, true⟩].map
          (fun x : AirFlow.Sample => x.speed),
        x ≤ AirFlow.npMax ([⟨1, 5, 30, true⟩, ⟨2, 3, 40, true⟩, ⟨7, 4, 50, true⟩].map
          (fun x : AirFlow.Sample => x.speed))) ∧
      kw.timestamp = (⟨7, 4, 50, true⟩ : AirFlow.Sample).timestamp :=
  airflow_good_report 2 [⟨1, 5, 30, true⟩, ⟨2, 3, 40, true⟩, ⟨7, 4, 50, true⟩]
    ⟨7, 4, 50, true⟩ (by decide) (by decide) (by decide) (by decide)

/-- Splitting a string free of the separator yields one piece. -/
theorem pySplit_no_sep (sep : Char) (l : List Char) (h : sep ∉ l) :
    pySplit sep l = [l] := by
  induction l with
  | nil => rfl
  | cons c t ih =>
    have hc : ¬ c = sep := by
      rintro rfl
      exact h (by simp)
    have ht : sep ∉ t := fun hm => h (by simp [hm])
    simp [pySplit, hc, ih ht]

/-- Splitting peels off a separator-free piece before a separator. -/
theorem pySplit_sep_append (sep : Char) (p r : List Char) (hp : sep ∉ p) :
    pySplit sep (p ++ sep :: r) = p :: pySplit sep r := by
  induction p with
  | nil => simp [pySplit]
  | cons c t ih =>
    have hc : ¬ c = sep := by
      rintro rfl
      exact hp (by simp)
    have ht : sep ∉ t := fun hm => hp (by simp [hm])
    simp [pySplit, hc, ih ht]

/-- Splitting a separator-join of separator-free pieces gives the pieces
back. -/
theorem pySplit_joinWith (sep : Char) (ps : List (List Char)) (hne : ps ≠ [])
    (h : ∀ p ∈ ps, sep ∉ p) :
    pySplit sep (Temperature.joinWith sep ps) = ps := by
  induction ps with
  | nil => exact absurd rfl hne
  | cons p rest ih =>
    cases rest with
    | nil => exact pySplit_no_sep sep p (h p (by simp))
    | cons q rest2 =>
      rw [Temperature.joinWith,
        pySplit_sep_append sep p _ (h p (by simp)),
        ih (by simp) (fun x hx => h x (by simp [hx]))]

/-- A member of a join is the separator or a member of some piece. -/
theorem mem_joinWith (sep : Char) (ps : List (List Char)) (c : Char)
    (hc : c ∈ Temperature.joinWith sep ps) : c = sep ∨ ∃ p ∈ ps, c ∈ p := by
  induction ps with
  | nil => simp [Temperature.joinWith] at hc
  | cons p rest ih =>
    cases rest with
    | nil =>
      exact Or.inr ⟨p, by simp, hc⟩
    | cons q rest2 =>
      rw [Temperature.joinWith] at hc
      rcases List.mem_append.mp hc with h1 | h1
      · exact Or.inr ⟨p, by simp, h1⟩
      · rcases List.mem_cons.mp h1 with h2 | h2
        · exact Or.inl h2
        · rcases ih h2 with h3 | ⟨x, hx1, hx2⟩
          · exact Or.inl h3
          · exact Or.inr ⟨x, by simp [hx1], hx2⟩

/-- Stripping characters that do not occur in the string is the
identity. -/
theorem pyStrip_id (cs l : List Char) (h : ∀ c ∈ l, c ∉ cs) :
    pyStrip cs l = l := by
  have hd : ∀ (l' : List Char), (∀ c ∈ l', c ∉ cs) →
      l'.dropWhile (fun c => decide (c ∈ cs)) = l' := by
    intro l' h'
    cases l' with
    | nil => rfl
    | cons c t =>
      rw [List.dropWhile_cons, if_neg]
      simp [h' c (by simp)]
  rw [pyStrip, hd l h, hd l.reverse (fun c hc => h c (List.mem_reverse.mp hc)),
    List.reverse_reverse]

/-- A fallible map over elements that all succeed collects the
successes. -/
theorem mapM_map_ok {α β γ : Type} (f : β → Except Unit γ) (m : α → β)
    (g : α → γ) (l : List α) (h : ∀ a ∈ l, f (m a) = .ok (g a)) :
    (l.map m).mapM f = .ok (l.map g) := by
  induction l with
  | nil => rfl
  | cons x t ih =>
    rw [List.map_cons, List.mapM_cons, h x (by simp),
      ih (fun a ha => h a (by simp [ha]))]
    rfl

/-- A fallible map over a list with a failing element fails. -/
theorem mapM_error_of_mem {α β : Type} (f : α → Except Unit β) (l : List α)
    (a : α) (ha : a ∈ l) (hf : f a = .error ()) : l.mapM f = .error () := by
  induction l with
  | nil => simp at ha
  | cons x t ih =>
    rw [List.mapM_cons]
    rcases List.mem_cons.mp ha with h1 | h1
    · rw [← h1, hf]
      rfl
    · cases hfx : f x with
      | error e =>
        cases e
        rfl
      | ok y =>
        rw [ih h1]
        rfl

/-- The split of a string has one piece more than the string has
separators. -/
theorem pySplit_ne_nil (sep : Char) (l : List Char) : pySplit sep l ≠ [] := by
  induction l with
  | nil => simp [pySplit]
  | cons c t ih =>
    by_cases hc : c = sep
    · simp [pySplit, hc]
    · rcases h : pySplit sep t with _ | ⟨x, xs⟩
      · exact absurd h ih
      · simp [pySplit, hc, h]

/-- Piece count of a split: separators plus one. -/
theorem pySplit_length_count (sep : Char) (l : List Char) :
    (pySplit sep l).length = l.count sep + 1 := by
  induction l with
  | nil => simp [pySplit]
  | cons c t ih =>
    by_cases hc : c = sep
    · subst hc
      simp [pySplit, List.count_cons, ih]
    · rcases h : pySplit sep t with _ | ⟨x, xs⟩
      · exact absurd h (pySplit_ne_nil sep t)
      · rw [h] at ih
        simp only [List.length_cons] at ih
        simp [pySplit, hc, h, List.count_cons, ih]

/-- One well-formed `label=value` item decodes to its field value. -/
theorem extract_item_eq_fieldVal (lab v : List Char) (hlab : '=' ∉ lab)
    (hv : '=' ∉ v)
    (hok : v = Temperature.disconnectedValue ∨ (parseFloat v).isSome = true) :
    Temperature.extract_item (lab ++ '=' :: v) =
      .ok (Temperature.fieldVal (lab, v)) := by
  have hsp : pySplit '=' (lab ++ '=' :: v) = [lab, v] := by
    rw [pySplit_sep_append '=' lab v hlab, pySplit_no_sep '=' v hv]
  rcases hok with h | h
  · subst h
    simp [Temperature.extract_item, hsp, Temperature.fieldVal]
  · by_cases hd : v = Temperature.disconnectedValue
    · subst hd
      simp [Temperature.extract_item, hsp, Temperature.fieldVal]
    · obtain ⟨q, hq⟩ := Option.isSome_iff_exists.mp h
      simp [Temperature.extract_item, hsp, Temperature.fieldVal, hd, hq]

/-- An item with two or more `=` raises ValueError. -/
theorem extract_item_error (item : List Char) (h : 2 ≤ item.count '=') :
    Temperature.extract_item item = .error () := by
  have hlen : 3 ≤ (pySplit '=' item).length := by
    rw [pySplit_length_count]
    omega
  rcases hsp : pySplit '=' item with _ | ⟨a, _ | ⟨b, _ | ⟨c, rest⟩⟩⟩ <;>
    rw [hsp] at hlen <;> simp at hlen
  simp [Temperature.extract_item, hsp]

/-- C9: for a line of K ≤ num_channels comma-separated `label=value`
fields — labels and values free of the delimiter, `=` and terminator
characters, values either the disconnected sentinel or parseable
decimals — `extract_telemetry` returns the fixed-width record: the first
`num_channels − K` entries NaN and the rest the field values (sentinel
→ NaN, otherwise the parsed decimal). And for any line one of whose
comma-separated items contains `=` more than once, `extract_telemetry`
raises ValueError. -/
theorem temperature_extract_pads_and_rejects :
    (∀ (nc : Nat) (fields : List (List Char × List Char)),
      fields ≠ [] → fields.length ≤ nc →
      (∀ p ∈ fields, '=' ∉ p.1 ∧ ',' ∉ p.1 ∧ '\r' ∉ p.1 ∧ '\n' ∉ p.1) →
      (∀ p ∈ fields, '=' ∉ p.2 ∧ ',' ∉ p.2 ∧ '\r' ∉ p.2 ∧ '\n' ∉ p.2) →
      (∀ p ∈ fields,
        p.2 = Temperature.disconnectedValue ∨ (parseFloat p.2).isSome = true) →
      Temperature.extract_telemetry
          (Temperature.joinWith ',' (fields.map Temperature.renderField)) nc =
        .ok (List.replicate (nc - fields.length) PyVal.nan ++
          fields.map Temperature.fieldVal)) ∧
    (∀ (nc : Nat) (line item : List Char),
      item ∈ pySplit defaultDelimiter (pyStrip defaultTerminator line) →
      2 ≤ item.count '=' →
      Temperature.extract_telemetry line nc = .error ()) := by
  constructor
  · intro nc fields hne hK hlab hval hok
    have hmemfield : ∀ p ∈ fields, ∀ c ∈ Temperature.renderField p,
        c ∈ p.1 ∨ c = '=' ∨ c ∈ p.2 := by
      intro p _ c hc
      rcases List.mem_append.mp hc with h1 | h1
      · exact Or.inl h1
      · rcases List.mem_cons.mp h1 with h2 | h2
        · exact Or.inr (Or.inl h2)
        · exact Or.inr (Or.inr h2)
    have hterm : ∀ c ∈ Temperature.joinWith ','
        (fields.map Temperature.renderField), c ∉ defaultTerminator := by
      intro c hc
      rcases mem_joinWith ',' _ c hc with h1 | ⟨p', hp1, hp2⟩
      · subst h1
        decide
      · obtain ⟨p, hp, hpr⟩ := List.mem_map.mp hp1
        rcases hmemfield p hp c (hpr ▸ hp2) with h2 | h2 | h2
        · intro hmem
          have hcc : c = '\r' ∨ c = '\n' := by
            simpa [defaultTerminator] using hmem
          rcases (hlab p hp).2.2 with ⟨hr, hn⟩
          rcases hcc with h3 | h3
          · exact hr (h3 ▸ h2)
          · exact hn (h3 ▸ h2)
        · subst h2
          decide
        · intro hmem
          have hcc : c = '\r' ∨ c = '\n' := by
            simpa [defaultTerminator] using hmem
          rcases (hval p hp).2.2 with ⟨hr, hn⟩
          rcases hcc with h3 | h3
          · exact hr (h3 ▸ h2)
          · exact hn (h3 ▸ h2)
    have hnocomma : ∀ r ∈ fields.map Temperature.renderField, ',' ∉ r := by
      intro r hr hmem
      obtain ⟨p, hp, hpr⟩ := List.mem_map.mp hr
      rcases hmemfield p hp ',' (hpr ▸ hmem) with h2 | h2 | h2
      · exact (hlab p hp).2.1 h2
      · cases h2
      · exact (hval p hp).2.1 h2
    have hstrip : pyStrip defaultTerminator
        (Temperature.joinWith ',' (fields.map Temperature.renderField)) =
        Temperature.joinWith ',' (fields.map Temperature.renderField) :=
      pyStrip_id _ _ hterm
    have hmapne : fields.map Temperature.renderField ≠ [] := by
      simpa using hne
    have hsplit : pySplit defaultDelimiter
        (Temperature.joinWith ',' (fields.map Temperature.renderField)) =
        fields.map Temperature.renderField :=
      pySplit_joinWith ',' _ hmapne hnocomma
    have hmapm : (fields.map Temperature.renderField).mapM
        Temperature.extract_item = .ok (fields.map Temperature.fieldVal) := by
      refine mapM_map_ok _ _ _ _ ?_
      intro p hp
      exact extract_item_eq_fieldVal p.1 p.2 (hlab p hp).1 (hval p hp).1
        (hok p hp)
    rw [Temperature.extract_telemetry, hstrip, hsplit, hmapm]
    show Except.ok (Temperature.add_missing_telemetry _ nc) = _
    rw [Temperature.add_missing_telemetry]
    rcases Nat.lt_or_ge (fields.map Temperature.fieldVal).length nc with hlt | hge
    · rw [if_pos hlt]
      simp
    · rw [if_neg (by omega)]
      have : nc - fields.length = 0 := by
        rw [List.length_map] at hge
        omega
      rw [this]
      simp
  · intro nc line item hitem hcount
    have herr := extract_item_error item hcount
    have hmapm := mapM_error_of_mem Temperature.extract_item _ item hitem herr
    rw [Temperature.extract_telemetry, hmapm]
    rfl

/-- C9 witness: the fields C01=0021.1234 and C02=9999.9990 with 4
channels (two NaN pads, a parsed value, a sentinel NaN), and the
two-equals line `C00=1=2` raising. -/
theorem temperature_extract_pads_and_rejects_witness :
    Temperature.extract_telemetry
        (Temperature.joinWith ','
          ([(['C', '0', '1'], "0021.1234".toList),
            (['C', '0', '2'], "9999.9990".toList)].map Temperature.renderField)) 4 =
      .ok (List.replicate 2 PyVal.nan ++
        [(['C', '0', '1'], "0021.1234".toList),
          (['C', '0', '2'], "9999.9990".toList)].map Temperature.fieldVal) ∧
    Temperature.extract_telemetry "C00=1=2".toList 4 = .error () := by
  constructor
  · exact temperature_extract_pads_and_rejects.1 4
      [(['C', '0', '1'], "0021.1234".toList), (['C', '0', '2'], "9999.9990".toList)]
      (by decide) (by decide) (by decide) (by decide) (by decide)
  · exact temperature_extract_pads_and_rejects.2 4 "C00=1=2".toList
      "C00=1=2".toList (by decide) (by decide)

namespace Windsonic

/-- A digit character is ASCII. -/
theorem digit_toNat_lt (c : Char) (h : c.isDigit = true) : c.toNat < 128 := by
  simp [Char.isDigit] at h
  obtain ⟨h1, h2⟩ := h
  rw [UInt32.le_def, BitVec.le_def] at h2
  simp [Char.toNat, UInt32.toNat] at h2 ⊢
  omega

/-- Round trip of `Char.ofNat` below the surrogate range. -/
theorem char_ofNat_toNat (n : Nat) (h : n < 55296) : (Char.ofNat n).toNat = n := by
  have hv : n.isValidChar := Or.inl h
  rw [Char.ofNat, dif_pos hv]
  rfl

/-- Tampering preserves length. -/
theorem xorAt_length (i mask : Nat) (l : List Char) :
    (xorAt i mask l).length = l.length := by
  induction l generalizing i with
  | nil => cases i <;> rfl
  | cons c t ih =>
    cases i with
    | zero => rfl
    | succ j => simp [xorAt, ih j]

/-- XOR-ing the fold seed commutes with folding the XOR checksum. -/
theorem foldl_xor_init (t : List Char) (x m : Nat) :
    t.foldl (fun a c => a ^^^ c.toNat) (x ^^^ m) =
      (t.foldl (fun a c => a ^^^ c.toNat) x) ^^^ m := by
  induction t generalizing x with
  | nil => rfl
  | cons d t ih =>
    show t.foldl _ ((x ^^^ m) ^^^ d.toNat) = _
    have hx : (x ^^^ m) ^^^ d.toNat = (x ^^^ d.toNat) ^^^ m := by
      rw [Nat.xor_assoc, Nat.xor_assoc, Nat.xor_comm m]
    rw [hx, ih]
    rfl

/-- XOR-ing one ASCII byte of the string XORs its checksum by the mask. -/
theorem checksum_xorAt (l : List Char) (i a mask : Nat) (hi : i < l.length)
    (hc : ∀ c ∈ l, c.toNat < 128) (hm : mask < 256) :
    (xorAt i mask l).foldl (fun a c => a ^^^ c.toNat) a =
      (l.foldl (fun a c => a ^^^ c.toNat) a) ^^^ mask := by
  induction l generalizing i a with
  | nil => simp at hi
  | cons c t ih =>
    cases i with
    | zero =>
      show t.foldl _ (a ^^^ (Char.ofNat (c.toNat ^^^ mask)).toNat) = _
      have hlt : c.toNat ^^^ mask < 256 := by
        have h1 : c.toNat < 2 ^ 8 := by
          have := hc c (by simp)
          omega
        have h2 : mask < 2 ^ 8 := by omega
        have := Nat.xor_lt_two_pow h1 h2
        omega
      rw [char_ofNat_toNat _ (by omega)]
      have hx : a ^^^ (c.toNat ^^^ mask) = (a ^^^ c.toNat) ^^^ mask := by
        rw [Nat.xor_assoc]
      rw [hx, foldl_xor_init]
      rfl
    | succ j =>
      show (xorAt j mask t).foldl _ (a ^^^ c.toNat) = _
      exact ih j (a ^^^ c.toNat) (by simpa using hi)
        (fun d hd => hc d (by simp [hd]))

/-- XOR with a non-zero mask changes the value. -/
theorem xor_ne_of_mask (a mask : Nat) (h : 0 < mask) : a ^^^ mask ≠ a := by
  intro heq
  have h2 : a ^^^ (a ^^^ mask) = a ^^^ a := by rw [heq]
  rw [← Nat.xor_assoc, Nat.xor_self, Nat.zero_xor] at h2
  omega

/-- The characters of a frame body: the fixed `Q`, comma, `M`, or a
character of one of the three fields. -/
theorem mem_checksum_string (d sp st : List Char) (c : Char)
    (hc : c ∈ checksum_string d sp st) :
    c = 'Q' ∨ c = ',' ∨ c = 'M' ∨ c ∈ d ∨ c ∈ sp ∨ c ∈ st := by
  simp [checksum_string] at hc
  tauto

/-- Every character of a well-formed frame body is ASCII. -/
theorem body_chars_lt (dirOpt : Option (List Char)) (sp st : List Char)
    (hdir : WFDir dirOpt) (hsp : WFSpeed sp) (hst : WFStatus st) :
    ∀ c ∈ checksum_string (dirOpt.getD []) sp st, c.toNat < 128 := by
  intro c hc
  rcases mem_checksum_string _ _ _ c hc with rfl | rfl | rfl | h | h | h
  · decide
  · decide
  · decide
  · cases dirOpt with
    | none => simp at h
    | some d =>
      obtain ⟨d1, d2, d3, hde, hd1, hd2, hd3⟩ := hdir
      subst hde
      simp at h
      rcases h with rfl | rfl | rfl
      · exact digit_toNat_lt _ hd1
      · exact digit_toNat_lt _ hd2
      · exact digit_toNat_lt _ hd3
  · obtain ⟨s1, s2, s3, s4, s5, hspe, hs1, hs2, hs3, hs4, hs5⟩ := hsp
    subst hspe
    simp at h
    rcases h with rfl | rfl | rfl | rfl | rfl | rfl
    · exact digit_toNat_lt _ hs1
    · exact digit_toNat_lt _ hs2
    · exact digit_toNat_lt _ hs3
    · decide
    · exact digit_toNat_lt _ hs4
    · exact digit_toNat_lt _ hs5
  · obtain ⟨t1, t2, hste, ht1, ht2⟩ := hst
    subst hste
    simp at h
    rcases h with rfl | rfl
    · exact digit_toNat_lt _ ht1
    · exact digit_toNat_lt _ ht2

/-- Length of a well-formed frame body: 15 without direction, 18 with. -/
theorem checksum_string_length (dirOpt : Option (List Char)) (sp st : List Char)
    (hdir : WFDir dirOpt) (hsp : WFSpeed sp) (hst : WFStatus st) :
    (checksum_string (dirOpt.getD []) sp st).length = 15 ∨
      (checksum_string (dirOpt.getD []) sp st).length = 18 := by
  obtain ⟨s1, s2, s3, s4, s5, hspe, -⟩ := hsp
  obtain ⟨t1, t2, hste, -⟩ := hst
  subst hspe hste
  cases dirOpt with
  | none => left; simp [checksum_string]
  | some d =>
    obtain ⟨d1, d2, d3, hde, -⟩ := hdir
    subst hde
    right
    simp [checksum_string]

/-- Inversion of the speed/status/checksum/tail stage of the telemetry
pattern. -/
theorem wsParseSpeed_inv (l sp st cs : List Char) (e : Bool)
    (h : wsParseSpeed l = some (sp, st, cs, e)) :
    l = sp ++ ',' :: 'M' :: ',' :: st ++ ',' :: '\x03' :: cs ++
      (if e then ['\r', '\n', '\n'] else ['\r', '\n']) ∧
    WFSpeed sp ∧ WFStatus st ∧ WFCs cs := by
  rw [wsParseSpeed.eq_def] at h
  split at h
  · rename_i s1 s2 s3 s4 s5 t1 t2 h1 h2 tail
    split at h
    · rename_i hcond
      obtain ⟨hd1, hd2, hd3, hd4, hd5, he1, he2, hx1, hx2, htail⟩ := hcond
      simp only [Option.some.injEq, Prod.mk.injEq] at h
      obtain ⟨hsp, hst, hcs, he⟩ := h
      subst hsp hst hcs he
      refine ⟨?_, ⟨s1, s2, s3, s4, s5, rfl, hd1, hd2, hd3, hd4, hd5⟩,
        ⟨t1, t2, rfl, he1, he2⟩, ⟨h1, h2, rfl, hx1, hx2⟩⟩
      rcases htail with ht | ht <;> subst ht <;> simp
    · exact absurd h (by simp)
  · exact absurd h (by simp)

/-- Inversion of the full telemetry pattern: a successful match
decomposes the line into the rendered frame with well-formed groups. -/
theorem wsParse_inv (line : List Char) (g : WsGroups)
    (h : wsParse line = some g) :
    line = renderLine g ∧ WFDir g.dir ∧ WFSpeed g.speed ∧ WFStatus g.status ∧
      WFCs g.cs := by
  rw [wsParse.eq_def] at h
  split at h
  · rename_i rest
    rw [wsParseAfterQ.eq_def] at h
    split at h
    · rename_i rest2
      rw [Option.map_eq_some'] at h
      obtain ⟨⟨sp, st, cs, e⟩, hr, hg⟩ := h
      obtain ⟨hl, hwsp, hwst, hwcs⟩ := wsParseSpeed_inv rest2 sp st cs e hr
      subst hg
      refine ⟨?_, trivial, hwsp, hwst, hwcs⟩
      rw [hl]
      simp [renderLine, checksum_string]
    · rename_i d1 d2 d3 rest2 hno
      split at h
      · rename_i hds
        obtain ⟨hd1, hd2, hd3⟩ := hds
        rw [Option.map_eq_some'] at h
        obtain ⟨⟨sp, st, cs, e⟩, hr, hg⟩ := h
        obtain ⟨hl, hwsp, hwst, hwcs⟩ := wsParseSpeed_inv rest2 sp st cs e hr
        subst hg
        refine ⟨?_, ⟨d1, d2, d3, rfl, hd1, hd2, hd3⟩, hwsp, hwst, hwcs⟩
        rw [hl]
        simp [renderLine, checksum_string]
      · exact absurd h (by simp)
    · exact absurd h (by simp)
  · exact absurd h (by simp)

end Windsonic

/-- C8 counterexample: the well-formed frame
`\x02Q,010,001.00,M,00,\x031e\r\n` (transmitted checksum 1e equals the
XOR of the body) tampered at body byte 0 with mask 1 turns `Q` into `P`;
the tampered line no longer matches the telemetry pattern and
`extract_telemetry` raises ValueError instead of returning
`[nan, nan]`. -/
theorem windsonic_tamper_can_raise :
    '\x02' :: Windsonic.xorAt 0 1 "Q,010,001.00,M,00,".toList ++
        '\x03' :: "1e".toList ++ ['\r', '\n'] =
      "\x02P,010,001.00,M,00,\x031e\r\n".toList ∧
    Windsonic.hexValD "1e".toList =
      Windsonic.compute_checksum "Q,010,001.00,M,00,".toList ∧
    Windsonic.extract_telemetry "\x02P,010,001.00,M,00,\x031e\r\n".toList =
      .error () ∧
    Windsonic.extract_telemetry "\x02P,010,001.00,M,00,\x031e\r\n".toList ≠
      .ok [.nan, .nan] := by
  refine ⟨by decide, by decide, by decide, by decide⟩

/-- C8 (amended: a tamper that breaks the telemetry pattern raises
instead): for every well-formed frame (direction optional, digit speed
and status, hex checksum matching the XOR of the body), XOR-ing any
single body byte with any non-zero byte mask yields a line on which
`extract_telemetry` either raises ValueError (pattern broken) or returns
`[nan, nan]`; and on every line that matches the pattern with recomputed
checksum different from the transmitted one, `extract_telemetry`
returns `[nan, nan]` without raising. -/
theorem windsonic_tamper_nan_or_error (dirOpt : Option (List Char))
    (sp st : List Char) (h1 h2 : Char)
    (hdir : Windsonic.WFDir dirOpt) (hsp : Windsonic.WFSpeed sp)
    (hst : Windsonic.WFStatus st)
    (hh1 : Windsonic.isHexDigit h1 = true) (hh2 : Windsonic.isHexDigit h2 = true)
    (hcs : Windsonic.hexValD [h1, h2] =
      Windsonic.compute_checksum (Windsonic.checksum_string (dirOpt.getD []) sp st))
    (i mask : Nat)
    (hi : i < (Windsonic.checksum_string (dirOpt.getD []) sp st).length)
    (hm0 : 0 < mask) (hm : mask < 256) :
    (Windsonic.extract_telemetry
        ('\x02' :: Windsonic.xorAt i mask
            (Windsonic.checksum_string (dirOpt.getD []) sp st) ++
          '\x03' :: [h1, h2] ++ ['\r', '\n']) = .error () ∨
     Windsonic.extract_telemetry
        ('\x02' :: Windsonic.xorAt i mask
            (Windsonic.checksum_string (dirOpt.getD []) sp st) ++
          '\x03' :: [h1, h2] ++ ['\r', '\n']) = .ok [.nan, .nan]) ∧
    (∀ (l : List Char) (g : Windsonic.WsGroups), Windsonic.wsParse l = some g →
      Windsonic.compute_checksum
          (Windsonic.checksum_string (g.dir.getD []) g.speed g.status) ≠
        Windsonic.hexValD g.cs →
      Windsonic.extract_telemetry l = .ok [.nan, .nan]) := by
  have mismatch : ∀ (l : List Char) (g : Windsonic.WsGroups),
      Windsonic.wsParse l = some g →
      Windsonic.compute_checksum
          (Windsonic.checksum_string (g.dir.getD []) g.speed g.status) ≠
        Windsonic.hexValD g.cs →
      Windsonic.extract_telemetry l = .ok [.nan, .nan] := by
    intro l g hg hne
    rw [Windsonic.extract_telemetry.eq_def, hg]
    dsimp only
    rw [if_pos hne]
  refine ⟨?_, mismatch⟩
  cases hp : Windsonic.wsParse
      ('\x02' :: Windsonic.xorAt i mask
          (Windsonic.checksum_string (dirOpt.getD []) sp st) ++
        '\x03' :: [h1, h2] ++ ['\r', '\n']) with
  | none =>
    left
    rw [Windsonic.extract_telemetry.eq_def, hp]
    dsimp only
    rw [if_neg]
    intro hteq
    have hhead := congrArg List.head? hteq
    simp [defaultTerminator] at hhead
  | some g' =>
    right
    obtain ⟨hline, hgdir, hgsp, hgst, hgcs⟩ := Windsonic.wsParse_inv _ _ hp
    rw [Windsonic.renderLine] at hline
    rw [List.append_assoc, List.append_assoc] at hline
    have hxlen := Windsonic.xorAt_length i mask
      (Windsonic.checksum_string (dirOpt.getD []) sp st)
    have hblen := Windsonic.checksum_string_length dirOpt sp st hdir hsp hst
    have hblen' := Windsonic.checksum_string_length g'.dir g'.speed g'.status
      hgdir hgsp hgst
    obtain ⟨c1, c2, hcse, -, -⟩ := hgcs
    have hcslen : g'.cs.length = 2 := by rw [hcse]; rfl
    have htlen : (if g'.extraNL = true then ['\r', '\n', '\n'] else ['\r', '\n']).length = 2 ∨
        (if g'.extraNL = true then ['\r', '\n', '\n'] else ['\r', '\n']).length = 3 := by
      cases g'.extraNL <;> simp
    have hlens := congrArg List.length hline
    simp only [List.length_append, List.length_cons, List.length_nil, hxlen,
      hcslen] at hlens
    have hlen_eq : ('\x02' :: Windsonic.xorAt i mask
        (Windsonic.checksum_string (dirOpt.getD []) sp st)).length =
        ('\x02' :: Windsonic.checksum_string (g'.dir.getD []) g'.speed g'.status).length := by
      simp only [List.length_cons, hxlen]
      cases hnl : g'.extraNL <;> rw [hnl] at hlens <;> simp at hlens <;>
        rcases hblen with hb | hb <;> rcases hblen' with hb' | hb' <;> omega
    obtain ⟨hfront, hback⟩ := List.append_inj hline hlen_eq
    have hbeq : Windsonic.xorAt i mask
        (Windsonic.checksum_string (dirOpt.getD []) sp st) =
        Windsonic.checksum_string (g'.dir.getD []) g'.speed g'.status := by
      injection hfront
    have hrest2 : [h1, h2] ++ ['\r', '\n'] = g'.cs ++
        (if g'.extraNL = true then ['\r', '\n', '\n'] else ['\r', '\n']) := by
      injection hback
    obtain ⟨hcseq, -⟩ := List.append_inj hrest2 (by rw [hcslen]; rfl)
    have hchars := Windsonic.body_chars_lt dirOpt sp st hdir hsp hst
    have hcsx : Windsonic.compute_checksum
        (Windsonic.checksum_string (g'.dir.getD []) g'.speed g'.status) =
        Windsonic.compute_checksum
          (Windsonic.checksum_string (dirOpt.getD []) sp st) ^^^ mask := by
      rw [← hbeq]
      exact Windsonic.checksum_xorAt _ i 0 mask hi hchars hm
    have hne : Windsonic.compute_checksum
        (Windsonic.checksum_string (g'.dir.getD []) g'.speed g'.status) ≠
        Windsonic.hexValD g'.cs := by
      rw [hcsx, ← hcseq, hcs]
      exact Windsonic.xor_ne_of_mask _ mask hm0
    exact mismatch _ g' hp hne

/-- C8 witness: the amended theorem applied to the frame
`\x02Q,010,001.00,M,00,\x031e\r\n` tampered at body index 0 with
mask 1. -/
theorem windsonic_tamper_nan_or_error_witness :
    (Windsonic.extract_telemetry
        ('\x02' :: Windsonic.xorAt 0 1
            (Windsonic.checksum_string ((some ['0', '1', '0']).getD [])
              "001.00".toList ['0', '0']) ++
          '\x03' :: ['1', 'e'] ++ ['\r', '\n']) = .error () ∨
     Windsonic.extract_telemetry
        ('\x02' :: Windsonic.xorAt 0 1
            (Windsonic.checksum_string ((some ['0', '1', '0']).getD [])
              "001.00".toList ['0', '0']) ++
          '\x03' :: ['1', 'e'] ++ ['\r', '\n']) = .ok [.nan, .nan]) ∧
    (∀ (l : List Char) (g : Windsonic.WsGroups), Windsonic.wsParse l = some g →
      Windsonic.compute_checksum
          (Windsonic.checksum_string (g.dir.getD []) g.speed g.status) ≠
        Windsonic.hexValD g.cs →
      Windsonic.extract_telemetry l = .ok [.nan, .nan]) :=
  windsonic_tamper_nan_or_error (some ['0', '1', '0']) "001.00".toList
    ['0', '0'] '1' 'e'
    ⟨'0', '1', '0', rfl, by decide, by decide, by decide⟩
    ⟨'0', '0', '1', '0', '0', rfl, by decide, by decide, by decide, by decide, by decide⟩
    ⟨'0', '0', rfl, by decide, by decide⟩
    (by decide) (by decide) (by decide) 0 1 (by decide) (by decide) (by decide)

/-- C6 counterexample: when the handler is already started, a configure
command with an invalid configuration is answered with ALREADY_STARTED,
not INVALID_CONFIGURATION (the started check precedes validation). -/
theorem configure_invalid_when_started_replies_already_started :
    Handler.handle_command (C := Nat) (D := Nat)
      ⟨fun _ => false, fun _ => true, fun _ => [], fun _ => false, fun _ => false⟩
      ⟨some 0, true, []⟩ (.configure 1) =
      ([Handler.ALREADY_STARTED], .ok ⟨some 0, true, []⟩) ∧
    Handler.ALREADY_STARTED ≠ Handler.INVALID_CONFIGURATION := by
  exact ⟨rfl, by decide⟩

/-- C6 (amended: the handler is not already started): a configure command
whose configuration fails schema validation is answered with
INVALID_CONFIGURATION and leaves the whole handler state — in particular
the stored configuration — unchanged; and a start command before any
successful configure (no stored configuration) is answered with
NOT_CONFIGURED and changes no state. -/
theorem handler_invalid_configure_and_unconfigured_start {C D : Type}
    (env : Handler.Env C D) (s s2 : Handler.HState C D) (cfg : C)
    (hns : s.started = false) (hv : env.valid cfg = false)
    (hcfg : s2.configuration = none) :
    Handler.handle_command env s (.configure cfg) =
      ([Handler.INVALID_CONFIGURATION], .ok s) ∧
    Handler.handle_command env s2 .start = ([Handler.NOT_CONFIGURED], .ok s2) := by
  constructor
  · simp [Handler.handle_command, Handler.dispatch, Handler.configure, hns, hv]
  · simp [Handler.handle_command, Handler.dispatch,
      Handler.start_sending_telemetry, hcfg]

/-- C6 witness: the amended theorem applied to a never-configured,
not-started handler over `C = D = Nat` with an always-failing validator. -/
theorem handler_invalid_configure_and_unconfigured_start_witness :
    Handler.handle_command (C := Nat) (D := Nat)
      ⟨fun _ => false, fun _ => true, fun _ => [], fun _ => false, fun _ => false⟩
      ⟨none, false, []⟩ (.configure 1) =
      ([Handler.INVALID_CONFIGURATION], .ok ⟨none, false, []⟩) ∧
    Handler.handle_command (C := Nat) (D := Nat)
      ⟨fun _ => false, fun _ => true, fun _ => [], fun _ => false, fun _ => false⟩
      ⟨none, false, []⟩ .start = ([Handler.NOT_CONFIGURED], .ok ⟨none, false, []⟩) :=
  handler_invalid_configure_and_unconfigured_start
    ⟨fun _ => false, fun _ => true, fun _ => [], fun _ => false, fun _ => false⟩
    ⟨none, false, []⟩ ⟨none, false, []⟩ 1 rfl rfl rfl

/-- C7 counterexample: a start command to an already-started handler
(configured, devices `[99]` open) is answered with OK — not
ALREADY_STARTED — and the device list is rebuilt from the configuration
(devices re-created and re-opened): `start_sending_telemetry` never
checks `_started`. -/
theorem start_when_started_replies_ok :
    Handler.handle_command (C := Nat) (D := Nat)
      ⟨fun _ => true, fun _ => true, fun _ => [10, 20], fun _ => false, fun _ => false⟩
      ⟨some 0, true, [99]⟩ .start =
      ([Handler.OK], .ok ⟨some 0, true, [10, 20]⟩) ∧
    Handler.OK ≠ Handler.ALREADY_STARTED := by
  exact ⟨rfl, by decide⟩

/-- C7 (amended): a start command when the handler is already started is
not rejected: provided the stored configuration is truthy and no device
open fails, it re-creates and re-opens the configured devices (replacing
the device list) and replies OK; rejecting a repeated command with
ALREADY_STARTED is done by `configure`, not by start. -/
theorem start_when_started_reopens_devices {C D : Type}
    (env : Handler.Env C D) (s : Handler.HState C D) (cfg : C)
    (hst : s.started = true) (hc : s.configuration = some cfg)
    (ht : env.truthy cfg = true)
    (hopen : ∀ d ∈ env.devicesOf cfg, env.openFail d = false) :
    Handler.handle_command env s .start =
      ([Handler.OK], .ok { s with devices := env.devicesOf cfg, started := true }) ∧
    Handler.handle_command env s (.configure cfg) =
      ([Handler.ALREADY_STARTED], .ok s) := by
  constructor
  · simp [Handler.handle_command, Handler.dispatch,
      Handler.start_sending_telemetry, hc, ht,
      Handler.openDevices_no_fail env _ hopen]
  · simp [Handler.handle_command, Handler.dispatch, Handler.configure, hst]

/-- C7 witness: the amended theorem applied to a started handler over
`C = D = Nat` whose configuration lists devices 10 and 20. -/
theorem start_when_started_reopens_devices_witness :
    Handler.handle_command (C := Nat) (D := Nat)
      ⟨fun _ => true, fun _ => true, fun _ => [10, 20], fun _ => false, fun _ => false⟩
      ⟨some 0, true, [99]⟩ .start =
      ([Handler.OK], .ok ⟨some 0, true, [10, 20]⟩) ∧
    Handler.handle_command (C := Nat) (D := Nat)
      ⟨fun _ => true, fun _ => true, fun _ => [10, 20], fun _ => false, fun _ => false⟩
      ⟨some 0, true, [99]⟩ (.configure 0) =
      ([Handler.ALREADY_STARTED], .ok ⟨some 0, true, [99]⟩) := by
  have h := start_when_started_reopens_devices (C := Nat) (D := Nat)
    ⟨fun _ => true, fun _ => true, fun _ => [10, 20], fun _ => false, fun _ => false⟩
    ⟨some 0, true, [99]⟩ 0 rfl rfl rfl (by intro d _; rfl)
  exact h

/-- C10: `handle_command` sends exactly one reply per recognized command:
OK when the dispatched coroutine returns, the CommandError's response
code when it raises CommandError; an unrecognized command raises
KeyError from the dispatch lookup before any reply, and a
non-CommandError exception from the coroutine is re-raised with no
reply sent. -/
theorem handle_command_replies {C D : Type} (env : Handler.Env C D)
    (s : Handler.HState C D) :
    Handler.handle_command env s .unrecognized = ([], .error (.keyError, s)) ∧
    (∀ c : Handler.Cmd C, c ≠ .unrecognized →
      (∃ s1, Handler.dispatch env s c = .ok s1 ∧
        Handler.handle_command env s c = ([Handler.OK], .ok s1)) ∨
      (∃ code s1, Handler.dispatch env s c = .cmdError code s1 ∧
        Handler.handle_command env s c = ([code], .ok s1)) ∨
      (∃ s1, Handler.dispatch env s c = .exc s1 ∧
        Handler.handle_command env s c = ([], .error (.reraised, s1)))) := by
  constructor
  · rfl
  · intro c hc
    have hred : Handler.handle_command env s c =
        (match Handler.dispatch env s c with
         | .ok s1 => ([Handler.OK], .ok s1)
         | .cmdError code s1 => ([code], .ok s1)
         | .exc s1 => ([], .error (.reraised, s1))) := by
      cases c with
      | configure cfg => rfl
      | start => rfl
      | stop => rfl
      | unrecognized => exact absurd rfl hc
    rcases hd : Handler.dispatch env s c with s1 | ⟨code, s1⟩ | s1
    · exact Or.inl ⟨s1, rfl, by rw [hred, hd]⟩
    · exact Or.inr (Or.inl ⟨code, s1, rfl, by rw [hred, hd]⟩)
    · exact Or.inr (Or.inr ⟨s1, rfl, by rw [hred, hd]⟩)

/-- C10 witness: the theorem applied over `C = D = Nat` to a fresh
handler and the stop command (which raises CommandError NOT_STARTED
there). -/
theorem handle_command_replies_witness :
    Handler.handle_command (C := Nat) (D := Nat)
      ⟨fun _ => true, fun _ => true, fun _ => [], fun _ => false, fun _ => false⟩
      ⟨none, false, []⟩ .unrecognized =
      ([], .error (.keyError, ⟨none, false, []⟩)) ∧
    ((∃ s1, Handler.dispatch (C := Nat) (D := Nat)
        ⟨fun _ => true, fun _ => true, fun _ => [], fun _ => false, fun _ => false⟩
        ⟨none, false, []⟩ .stop = .ok s1 ∧
      Handler.handle_command
        ⟨fun _ => true, fun _ => true, fun _ => [], fun _ => false, fun _ => false⟩
        ⟨none, false, []⟩ .stop = ([Handler.OK], .ok s1)) ∨
     (∃ code s1, Handler.dispatch (C := Nat) (D := Nat)
        ⟨fun _ => true, fun _ => true, fun _ => [], fun _ => false, fun _ => false⟩
        ⟨none, false, []⟩ .stop = .cmdError code s1 ∧
      Handler.handle_command
        ⟨fun _ => true, fun _ => true, fun _ => [], fun _ => false, fun _ => false⟩
        ⟨none, false, []⟩ .stop = ([code], .ok s1)) ∨
     (∃ s1, Handler.dispatch (C := Nat) (D := Nat)
        ⟨fun _ => true, fun _ => true, fun _ => [], fun _ => false, fun _ => false⟩
        ⟨none, false, []⟩ .stop = .exc s1 ∧
      Handler.handle_command
        ⟨fun _ => true, fun _ => true, fun _ => [], fun _ => false, fun _ => false⟩
        ⟨none, false, []⟩ .stop = ([], .error (.reraised, s1)))) := by
  have h := handle_command_replies (C := Nat) (D := Nat)
    ⟨fun _ => true, fun _ => true, fun _ => [], fun _ => false, fun _ => false⟩
    ⟨none, false, []⟩
  exact ⟨h.1, h.2 .stop (by intro hh; cases hh)⟩

end EssCommon
